import Mathlib

/-!
# Verification of the receipt-ledger core: session tokens and anomaly detectors

Shallow embedding of the session-token component (`app/services/session.py`),
the anomaly-alert detectors (`app/services/alert_service.py`), the SQLite
connection discipline (`app/db/util.py`) and the alert/receipt write paths
(`app/routers/receipts.py`, `app/routers/alerts.py`).

Conventions:
* byte strings are `List Nat` (each entry a byte value);
* SQL `REAL`/`INTEGER` amounts are modelled as `ℚ` (exact arithmetic in place
  of IEEE floats; none of the verified properties depends on rounding);
* SQL `NULL`-able columns are `Option`; aggregate results that can be `NULL`
  are `Option` as well;
* the HMAC-SHA256 primitive is a parameter `mac : List Nat → List Nat →
  List Nat` of the session functions — every property proved here holds for
  an arbitrary deterministic MAC, which is all the source relies on.
-/

namespace Ledger

/-! ## Byte / character utilities -/

/-- The URL-safe base64 alphabet used by `base64.urlsafe_b64encode`. -/
def b64alphabet : List Char :=
  "ABCDEFGHIJKLMNOPQRSTUVWXYZabcdefghijklmnopqrstuvwxyz0123456789-_".data

/-- Character for a 6-bit value. -/
def b64chr (v : Nat) : Char := b64alphabet.getD v 'A'

/-- Inverse of `b64chr`: the 6-bit value of an alphabet character. -/
def b64val (c : Char) : Option Nat :=
  if c ∈ b64alphabet then some (b64alphabet.indexOf c) else none

/-- Pack bytes into 6-bit groups, zero-padding the final group
(the arithmetic form of the bit-stream regrouping done by `b2a_base64`). -/
def encodeGroups : List Nat → List Nat
  | [] => []
  | [a] => [a / 4, a % 4 * 16]
  | [a, b] => [a / 4, a % 4 * 16 + b / 16, b % 16 * 4]
  | a :: b :: c :: rest =>
      a / 4 :: (a % 4 * 16 + b / 16) :: (b % 16 * 4 + c / 64) :: c % 64 ::
        encodeGroups rest

/-- Unpack 6-bit groups back into bytes, dropping the trailing padding bits
(as `a2b_base64` does). -/
def decodeGroups : List Nat → List Nat
  | [] => []
  | [_] => []
  | [x, y] => [x * 4 + y / 16]
  | [x, y, z] => [x * 4 + y / 16, y % 16 * 16 + z / 4]
  | x :: y :: z :: w :: rest =>
      (x * 4 + y / 16) :: (y % 16 * 16 + z / 4) :: (z % 4 * 64 + w) ::
        decodeGroups rest

/-- `_b64url_encode`: URL-safe base64 without padding, on characters. -/
def b64urlEncode (bs : List Nat) : List Char :=
  (encodeGroups bs).map b64chr

/-- Effectful map over `Option` (structurally recursive form of `mapM`). -/
def optTraverse (f : α → Option β) : List α → Option (List β)
  | [] => some []
  | a :: as =>
      match f a, optTraverse f as with
      | some b, some bs => some (b :: bs)
      | _, _ => none

/-- The 6-bit value `binascii.a2b_base64` gives a character after
`urlsafe_b64decode`'s `-` to `+`, `_` to `/` byte translation: the standard
alphabet, with both spellings of 62 and 63 accepted.  A character with no
value is not an error — the non-strict decoder discards it. -/
def a2bVal (c : Char) : Option Nat :=
  if c = '+' then some 62 else if c = '/' then some 63 else b64val c

/-- `binascii.a2b_base64` in the non-strict mode that `base64.b64decode`
uses: walk the characters keeping the position inside the current 4-character
group (`qp`), the pending bits of the previous character (`leftc`) and the
count of pad characters seen since the last data character (`pads`).
Characters outside the alphabet are silently discarded; `=` after two or
three data characters of a group ends decoding successfully (the rest of
the input is ignored); at the end of input an unfinished group is an error
(a group of one data character, or of two or three without padding). -/
def a2bAux (qp leftc pads : Nat) : List Char → Option (List Nat)
  | [] => if qp = 0 then some [] else none
  | c :: cs =>
      if c = '=' then
        if 2 ≤ qp ∧ 4 ≤ qp + pads + 1 then some []
        else a2bAux qp leftc (pads + 1) cs
      else
        match a2bVal c with
        | none => a2bAux qp leftc pads cs
        | some v =>
            if qp = 0 then a2bAux 1 v 0 cs
            else if qp = 1 then
              (a2bAux 2 (v % 16) 0 cs).map (fun bs => (leftc * 4 + v / 16) :: bs)
            else if qp = 2 then
              (a2bAux 3 (v % 4) 0 cs).map (fun bs => (leftc * 16 + v / 4) :: bs)
            else (a2bAux 0 0 0 cs).map (fun bs => (leftc * 64 + v) :: bs)

/-- `_b64url_decode`: append `=` padding up to a multiple of four of the raw
length and call `base64.urlsafe_b64decode`.  A character beyond ASCII fails
`str.encode("ascii")` before any decoding (`none` here, the exception
swallowed by the caller); everything else goes through the NON-strict
`a2b_base64`, which discards characters outside the alphabet instead of
rejecting them. -/
def b64urlDecode (cs : List Char) : Option (List Nat) :=
  if cs.all (fun c => c.toNat < 128) then
    a2bAux 0 0 0 (cs ++ List.replicate ((4 - cs.length % 4) % 4) '=')
  else none

/-! ## Decimal and hexadecimal rendering -/

/-- The character for a decimal digit. -/
def digitChar (d : Nat) : Char := Char.ofNat (48 + d)

/-- Decimal digits, fuel-bounded so that the kernel can evaluate it
(`fuel ≥ n` always suffices, one division by ten per step). -/
def natCharsAux : Nat → Nat → List Char
  | 0, n => [digitChar n]
  | fuel + 1, n =>
      if n < 10 then [digitChar n]
      else natCharsAux fuel (n / 10) ++ [digitChar (n % 10)]

/-- Decimal digits of `n`, most significant first (`repr` of a Python int). -/
def natChars (n : Nat) : List Char := natCharsAux n n

/-- Decimal rendering of a Python `int` (`json.dumps` of an int). -/
def intChars (z : Int) : List Char :=
  if z < 0 then '-' :: natChars z.natAbs else natChars z.natAbs

/-- The character for a hex digit, lowercase (as `bytes.hex()`). -/
def hexDig (d : Nat) : Char := "0123456789abcdef".data.getD d 'x'

/-- `bytes.hex()`: two lowercase hex characters per byte. -/
def hexChars (bs : List Nat) : List Char :=
  bs.flatMap (fun b => [hexDig (b / 16), hexDig (b % 16)])

/-- Is a decimal digit character (`c.isDigit`). -/
def isDigitCh (c : Char) : Bool := 48 ≤ c.toNat && c.toNat ≤ 57

/-- The value of a digit string read left to right, starting from `acc`. -/
def digitsVal (acc : Nat) : List Char → Nat
  | [] => acc
  | c :: cs => digitsVal (acc * 10 + (c.toNat - 48)) cs

/-! ## Flat JSON values (the fragment `verify_session_token` consumes)

`json.loads` in the source is only ever applied to session payloads: a
top-level object whose values are integers and strings.  The parser below
covers exactly that fragment and rejects everything else; the session
payloads produced by `create_session_token` and the malformed inputs the
verified properties quantify over all live inside it. -/

/-- A flat JSON value: an integer or a string. -/
inductive JVal where
  | jint (n : Int)
  | jstr (s : String)
deriving DecidableEq, Repr

/-- A decoded JSON object: association list of key/value pairs in source
order (duplicate keys allowed, later wins, as in a Python dict build). -/
abbrev JObj := List (String × JVal)

/-- `payload.get(k)` on the dict built by `json.loads`: the value attached to
the last occurrence of `k`. -/
def jget (o : JObj) (k : String) : Option JVal :=
  (o.reverse.find? (fun p => p.1 == k)).map (fun p => p.2)

/-- Parse a JSON string body after the opening quote: plain characters up to
the closing quote; escapes are rejected (none ever appear in a session
payload). -/
def parseStrAux : List Char → Option (List Char × List Char)
  | [] => none
  | c :: rest =>
      if c = '"' then some ([], rest)
      else if c = '\\' then none
      else (parseStrAux rest).map (fun p => (c :: p.1, p.2))

/-- Parse a decimal natural number prefix. -/
def parseNatVal (cs : List Char) : Option (Nat × List Char) :=
  let ds := cs.takeWhile isDigitCh
  if ds.isEmpty then none else some (digitsVal 0 ds, cs.drop ds.length)

/-- Parse a JSON integer (optional leading minus). -/
def parseIntVal (cs : List Char) : Option (Int × List Char) :=
  if cs.head? = some '-' then (parseNatVal cs.tail).map (fun p => (-(p.1 : Int), p.2))
  else (parseNatVal cs).map (fun p => ((p.1 : Int), p.2))

/-- Parse a flat JSON value: a string or an integer. -/
def parseVal (cs : List Char) : Option (JVal × List Char) :=
  if cs.head? = some '"' then
    (parseStrAux cs.tail).map (fun p => (JVal.jstr (String.mk p.1), p.2))
  else (parseIntVal cs).map (fun p => (JVal.jint p.1, p.2))

/-- Parse the field list of an object, after the opening brace, until the
closing brace.  `fuel` bounds the number of fields. -/
def parseFields : Nat → List Char → Option (JObj × List Char)
  | 0, _ => none
  | fuel + 1, cs =>
      if cs.head? = some '"' then
        (parseStrAux cs.tail).bind (fun kp =>
          if kp.2.head? = some ':' then
            (parseVal kp.2.tail).bind (fun vp =>
              if vp.2.head? = some ',' then
                (parseFields fuel vp.2.tail).map
                  (fun p => ((String.mk kp.1, vp.1) :: p.1, p.2))
              else if vp.2.head? = some '}' then
                some ([(String.mk kp.1, vp.1)], vp.2.tail)
              else none)
          else none)
      else none

/-- `json.loads`, restricted to the flat-object fragment: the whole input
must be one object, with nothing after the closing brace. -/
def jparse (cs : List Char) : Option JObj :=
  if cs.head? = some '{' then
    if cs.tail.head? = some '}' then
      if cs.tail.tail.isEmpty then some [] else none
    else
      (parseFields (cs.tail.length + 1) cs.tail).bind
        (fun p => if p.2.isEmpty then some p.1 else none)
  else none

/-- `bytes.decode("utf-8")`, restricted to the ASCII plane (every session
payload byte string is ASCII; multi-byte sequences never occur there). -/
def asciiDecode (bs : List Nat) : Option (List Char) :=
  optTraverse (fun b => if b < 128 then some (Char.ofNat b) else none) bs

/-- `str.encode("utf-8")` on ASCII text. -/
def strBytes (cs : List Char) : List Nat := cs.map Char.toNat

/-! ## Session tokens (`app/services/session.py`)

The HMAC-SHA256 primitive appears as an explicit argument
`mac : List Nat → List Nat → List Nat` (key, message ↦ digest); every
statement below holds for an arbitrary such function, which is exactly what
the source relies on (determinism of `hmac.new(...).digest()`). -/

/-- The hardcoded fallback secret at module line 10. -/
def defaultSessionSecret : String :=
  "OOYyGx1yXg6JdlZoYCpoIV6xCY91mOP4Nt3zMslx9UF1q3jGAi3y-Mw3b_RQ6KMPk2U4kEG6QG_P1Z-2iF5FIQ"

/-- `SESSION_SECRET = os.getenv("SESSION_SECRET") or "OOYy..."` — module-load
resolution of the secret.  `env` is the environment variable: `none` when
unset; Python `or` also replaces the empty string by the fallback. -/
def sessionSecretInit (env : Option String) : String :=
  match env with
  | some s => if s = "" then defaultSessionSecret else s
  | none => defaultSessionSecret

/-- `_get_secret_bytes`: raises `RuntimeError` when the resolved secret is
empty, else returns its UTF-8 bytes. -/
def getSecretBytes (secret : String) : Except String (List Nat) :=
  if secret = "" then Except.error "SESSION_SECRET missing"
  else Except.ok (strBytes secret.data)

/-- `json.dumps(payload, separators=(",", ":"), sort_keys=True)` for the
session payload dict `{"uid": uid, "iat": iat, "exp": exp, "rnd": rnd}`:
compact rendering with the keys in sorted order `exp, iat, rnd, uid`. -/
def payloadChars (uid iat exp : Int) (rnd : List Char) : List Char :=
  '{' :: '"' :: 'e' :: 'x' :: 'p' :: '"' :: ':' :: (intChars exp ++
    (',' :: '"' :: 'i' :: 'a' :: 't' :: '"' :: ':' :: (intChars iat ++
      (',' :: '"' :: 'r' :: 'n' :: 'd' :: '"' :: ':' :: '"' :: (rnd ++
        ('"' :: ',' :: '"' :: 'u' :: 'i' :: 'd' :: '"' :: ':' ::
          (intChars uid ++ ['}'])))))))

/-- The dict `json.loads` recovers from the canonical payload. -/
def payloadObj (uid iat exp : Int) (rnd : List Char) : JObj :=
  [("exp", JVal.jint exp), ("iat", JVal.jint iat),
   ("rnd", JVal.jstr (String.mk rnd)), ("uid", JVal.jint uid)]

/-- `create_session_token(user_id)`.  `now` is `int(time.time())`, `ttl` is
`SESSION_TTL_SECONDS`, `rnd` the eight bytes of `os.urandom(8)`; the token is
`b64url(payload_bytes) ++ "." ++ b64url(hmac(secret, payload_bytes))`.
Raises (`Except.error`) only when the secret is empty. -/
def create_session_token (mac : List Nat → List Nat → List Nat)
    (secret : String) (ttl now : Int) (rnd : List Nat) (user_id : Int) :
    Except String String :=
  let payload_bytes := strBytes (payloadChars user_id now (now + ttl) (hexChars rnd))
  (getSecretBytes secret).map (fun key =>
    String.mk (b64urlEncode payload_bytes ++ '.' :: b64urlEncode (mac key payload_bytes)))

/-- `token.split(".")` destructured into exactly two parts: succeeds exactly
when the separator occurs exactly once. -/
def splitDot (cs : List Char) : Option (List Char × List Char) :=
  if cs.count '.' = 1 then
    some (cs.takeWhile (fun c => !(c == '.')), (cs.dropWhile (fun c => !(c == '.'))).tail)
  else none

/-- The final checks of `verify_session_token`: `payload.get("exp")` must be
an `int` not in the past (`exp < int(time.time())` rejects). -/
def expGuard (now : Int) (payload : JObj) : Option JObj :=
  match jget payload "exp" with
  | some (JVal.jint exp) => if exp < now then none else some payload
  | _ => none

/-- `verify_session_token(token)` at time `now`: `some payload` when the
token is well-formed, carries a valid signature and an unexpired integer
`exp`; `none` on every failure path (all exceptions are swallowed). -/
def verify_session_token (mac : List Nat → List Nat → List Nat)
    (secret : String) (now : Int) (token : String) : Option JObj :=
  if token.data.isEmpty then none
  else
    (splitDot token.data).bind (fun parts =>
      (b64urlDecode parts.1).bind (fun payload_bytes =>
        (b64urlDecode parts.2).bind (fun sig_provided =>
          (getSecretBytes secret).toOption.bind (fun key =>
            if sig_provided ≠ mac key payload_bytes then none
            else
              (asciiDecode payload_bytes).bind (fun text =>
                (jparse text).bind (expGuard now))))))

/-- Bool check: the payload carries an integer `exp` that is not in the
past.  This is the only payload content `verify_session_token` requires. -/
def expOk (now : Int) (payload : JObj) : Bool :=
  match jget payload "exp" with
  | some (JVal.jint e) => decide (now ≤ e)
  | _ => false

/-! ## Ledger store and anomaly detectors (`app/services/alert_service.py`)

The SQLite tables the detectors touch are modelled as lists of rows in
insertion (rowid) order; `fetchone()` on an unordered `SELECT` is the first
matching row, aggregates over zero rows are `NULL`.  Amounts are `ℚ`.
`date('now', '-3 months')` / `date('now', '-4 months')` appear as explicit
cutoff-date parameters; SQLite compares TEXT dates bytewise, modelled by
`dateGE`. -/

/-- A `receipts` row (the columns the core logic reads).  `rtype` is the
`type` column. -/
structure Receipt where
  id : Nat
  userId : Nat
  merchant : Option String
  category : Option String
  total : ℚ
  purchasedAt : String
  status : String
  rtype : String
  isDeleted : Bool
deriving DecidableEq, Repr

/-- A `budgets` row. -/
structure Budget where
  userId : Nat
  month : String
  amount : ℚ
deriving DecidableEq, Repr

/-- An `alerts` row; `kind` is the `type` column, `isRead` defaults false. -/
structure Alert where
  id : Nat
  userId : Nat
  kind : String
  message : String
  relatedReceiptId : Option Nat
  isRead : Bool
deriving DecidableEq, Repr

/-- The database state seen through one connection. -/
structure DB where
  receipts : List Receipt
  budgets : List Budget
  alerts : List Alert
  nextReceiptId : Nat
  nextAlertId : Nat
deriving DecidableEq, Repr

/-- `s[:n]` / `substr(s, 1, n)`. -/
def takeStr (n : Nat) (s : String) : String := String.mk (s.data.take n)

/-- Bytewise (SQLite memcmp) string order, `a ≤ b`. -/
def charListLe : List Char → List Char → Bool
  | [], _ => true
  | _ :: _, [] => false
  | a :: as, b :: bs =>
      if a.toNat < b.toNat then true
      else if b.toNat < a.toNat then false
      else charListLe as bs

/-- `purchased_at >= cutoff` as SQLite compares TEXT. -/
def dateGE (d cutoff : String) : Bool := charListLe cutoff.data d.data

/-- SQL `=` on a nullable column against a possibly-`NULL` parameter:
`NULL` never compares equal. -/
def sqlEqOptStr : Option String → Option String → Bool
  | some a, some b => a == b
  | _, _ => false

/-- Python `f"{opt}"`: `None` renders as `"None"`. -/
def optStr : Option String → String
  | none => "None"
  | some s => s

/-- Python `int()` truncation toward zero on an exact rational. -/
def pyInt (q : ℚ) : Int := q.num.tdiv q.den

/-- `INSERT INTO alerts (user_id, type, message, related_receipt_id)`:
append a row with the next rowid, `is_read` defaulting to 0. -/
def insertAlert (db : DB) (uid : Nat) (kind msg : String) (rel : Option Nat) : DB :=
  { db with
    alerts := db.alerts ++
      [{ id := db.nextAlertId, userId := uid, kind := kind, message := msg,
         relatedReceiptId := rel, isRead := false }],
    nextAlertId := db.nextAlertId + 1 }

/-- SQL `AVG` over a list of values: `NULL` on the empty set. -/
def sqlAvg (l : List ℚ) : Option ℚ :=
  if l.isEmpty then none else some (l.sum / l.length)

/-- The trailing-window history rows of the category-overspend query: same
user and category, CONFIRMED, not deleted, expense, on or after the cutoff,
excluding the triggering receipt. -/
def overspendHistory (cutoff3 : String) (db : DB) (user_id receipt_id : Nat)
    (cat : String) : List Receipt :=
  db.receipts.filter (fun x =>
    x.userId == user_id && x.category == some cat &&
    x.status == "CONFIRMED" && !x.isDeleted && x.rtype == "expense" &&
    dateGE x.purchasedAt cutoff3 && x.id != receipt_id)

/-- `check_overspend_alert` (category overspend detector). -/
def check_overspend_alert (cutoff3 : String) (db : DB) (user_id receipt_id : Nat) :
    DB :=
  match db.receipts.find? (fun x => x.id == receipt_id && !x.isDeleted) with
  | none => db
  | some r =>
      match r.category with
      | none => db
      | some cat =>
          if cat = "" then db
          else
            match sqlAvg ((overspendHistory cutoff3 db user_id receipt_id cat).map
                Receipt.total) with
            | none => db
            | some avg =>
                if avg ≠ 0 ∧ r.total > avg * (5 / 2) then
                  insertAlert db user_id "anomaly"
                    (cat ++ " 지출이 평소보다 큽니다 (" ++ toString r.total ++ "원)")
                    (some receipt_id)
                else db

/-- Is a leap year (Gregorian, as SQLite's date functions). -/
def isLeap (y : Nat) : Bool := (y % 4 == 0 && y % 100 != 0) || y % 400 == 0

/-- Days in a month. -/
def daysInMonthNum (y m : Nat) : Nat :=
  if m = 2 then (if isLeap y then 29 else 28)
  else if m = 4 ∨ m = 6 ∨ m = 9 ∨ m = 11 then 30
  else 31

/-- Parse `YYYY-MM`; `none` models SQLite's `date()` returning `NULL` on a
malformed month string. -/
def parseMonthStr (s : String) : Option (Nat × Nat) :=
  match s.data with
  | [y1, y2, y3, y4, '-', m1, m2] =>
      if isDigitCh y1 && isDigitCh y2 && isDigitCh y3 && isDigitCh y4 &&
          isDigitCh m1 && isDigitCh m2 then
        let m := digitsVal 0 [m1, m2]
        if 1 ≤ m ∧ m ≤ 12 then some (digitsVal 0 [y1, y2, y3, y4], m) else none
      else none
  | _ => none

/-- The user's budget rows for one month. -/
def monthBudgets (db : DB) (user_id : Nat) (month : String) : List Budget :=
  db.budgets.filter (fun b => b.userId == user_id && b.month == month)

/-- Total CONFIRMED, non-deleted expense spend of a user on one calendar
day. -/
def daySpend (db : DB) (user_id : Nat) (day : String) : ℚ :=
  ((db.receipts.filter (fun x =>
    x.userId == user_id && x.status == "CONFIRMED" && !x.isDeleted &&
    x.rtype == "expense" && takeStr 10 x.purchasedAt == day)).map
      Receipt.total).sum

/-- Total CONFIRMED, non-deleted expense spend of a user in one calendar
month. -/
def monthSpend (db : DB) (user_id : Nat) (month : String) : ℚ :=
  ((db.receipts.filter (fun x =>
    x.userId == user_id && x.status == "CONFIRMED" && !x.isDeleted &&
    x.rtype == "expense" && takeStr 7 x.purchasedAt == month)).map
      Receipt.total).sum

/-- `check_daily_overspend_alert`: the only detector that can raise — when
the month string is malformed, `strftime` yields `NULL` and `int(None)`
raises `TypeError`, aborting the enclosing transaction. -/
def check_daily_overspend_alert (db : DB) (user_id receipt_id : Nat) :
    Except String DB :=
  match db.receipts.find? (fun x => x.id == receipt_id && !x.isDeleted &&
      x.status == "CONFIRMED" && x.rtype == "expense") with
  | none => Except.ok db
  | some r =>
      let day := takeStr 10 r.purchasedAt
      let month := takeStr 7 r.purchasedAt
      let bs := monthBudgets db user_id month
      let total_budget := (bs.map Budget.amount).sum
      if bs.isEmpty || total_budget == 0 then Except.ok db
      else
        match parseMonthStr month with
        | none => Except.error "TypeError: int() argument must not be None"
        | some (y, m) =>
            let daily_target := total_budget / (daysInMonthNum y m : ℚ)
            let day_total := daySpend db user_id day
            if day_total > daily_target * (3 / 2) then
              Except.ok (insertAlert db user_id "overspend"
                (day ++ " 하루 지출이 목표(" ++ toString (pyInt daily_target) ++
                  "원)를 초과했습니다 (" ++ toString (pyInt day_total) ++ "원)")
                (some receipt_id))
            else Except.ok db

/-- The distinct calendar months in the trailing window holding a CONFIRMED,
non-deleted expense of the user at the given merchant with an amount inside
the `[lower, upper]` band. -/
def fixedCostMonths (cutoff4 : String) (db : DB) (user_id : Nat)
    (merchant : Option String) (lower upper : ℚ) : List String :=
  ((db.receipts.filter (fun x =>
    x.userId == user_id && sqlEqOptStr x.merchant merchant &&
    decide (lower ≤ x.total) && decide (x.total ≤ upper) &&
    x.status == "CONFIRMED" && !x.isDeleted && x.rtype == "expense" &&
    dateGE x.purchasedAt cutoff4)).map (fun x => takeStr 7 x.purchasedAt)).dedup

/-- `check_fixed_cost_alert` (recurring fixed-cost detector). -/
def check_fixed_cost_alert (cutoff4 : String) (db : DB) (user_id receipt_id : Nat) :
    DB :=
  match db.receipts.find? (fun x => x.id == receipt_id && x.userId == user_id &&
      x.status == "CONFIRMED" && !x.isDeleted && x.rtype == "expense") with
  | none => db
  | some r =>
      let months := fixedCostMonths cutoff4 db user_id r.merchant
        (r.total * (19 / 20)) (r.total * (21 / 20))
      if 3 ≤ months.length then
        insertAlert db user_id "fixed_detected"
          ("정기 지출로 보이는 항목이 감지되었습니다 (" ++ optStr r.merchant ++ ")")
          (some receipt_id)
      else db

/-- `check_monthly_budget_alert` (monthly budget detector; defined in the
source but invoked from no router). -/
def check_monthly_budget_alert (db : DB) (user_id receipt_id : Nat) : DB :=
  match db.receipts.find? (fun x => x.id == receipt_id &&
      x.status == "CONFIRMED" && !x.isDeleted && x.rtype == "expense") with
  | none => db
  | some r =>
      let month := takeStr 7 r.purchasedAt
      let bs := monthBudgets db user_id month
      let budget := (bs.map Budget.amount).sum
      if bs.isEmpty || budget == 0 then db
      else
        let spent := monthSpend db user_id month
        if spent > budget then
          insertAlert db user_id "budget_exceeded"
            (month ++ " 월 예산을 초과했습니다 (" ++ toString (pyInt spent) ++ "원)")
            none
        else db

/-- The detector phase both `confirm_receipt` and `update_receipt` run after
the ledger write: exactly three detector calls, in source order, each given
the connection state, the user id and the receipt id. -/
def runConfirmDetectors (cutoff3 cutoff4 : String) (db : DB)
    (user_id receipt_id : Nat) : Except String DB :=
  let db2 := check_overspend_alert cutoff3 db user_id receipt_id
  match check_daily_overspend_alert db2 user_id receipt_id with
  | Except.error e => Except.error e
  | Except.ok db3 => Except.ok (check_fixed_cost_alert cutoff4 db3 user_id receipt_id)

/-- Modelled from the spec: the `receipts` schema (`app/db/schema.sql`) is
not part of the repository sources.  The data model fixes transaction rows
to carry `type ∈ expense|income|transfer` with the detectors consuming
`expense` rows written by the confirm flow, whose `INSERT` omits `type`
and `is_deleted`; the column defaults are therefore `expense` and 0. -/
def receiptTypeDefault : String := "expense"

/-- The `INSERT INTO receipts (...)` of `confirm_receipt`: appends a row
with the next rowid; `type` and `is_deleted` take their schema defaults. -/
def insertReceipt (db : DB) (user_id : Nat) (merchant : String) (total : ℚ)
    (purchased_at status : String) (category : Option String) : DB × Nat :=
  ({ db with
      receipts := db.receipts ++
        [{ id := db.nextReceiptId, userId := user_id, merchant := some merchant,
           category := category, total := total, purchasedAt := purchased_at,
           status := status, rtype := receiptTypeDefault, isDeleted := false }],
      nextReceiptId := db.nextReceiptId + 1 },
   db.nextReceiptId)

/-- The transactional body of `confirm_receipt`: insert the receipt, then
run the three detectors on the same connection (receipt-item rows and draft
bookkeeping are omitted; no verified property concerns them). -/
def confirmBody (cutoff3 cutoff4 : String) (user_id : Nat) (merchant : String)
    (total : ℚ) (purchased_at status : String) (category : Option String)
    (db : DB) : Except String (DB × Nat) :=
  let ins := insertReceipt db user_id merchant total purchased_at status category
  match runConfirmDetectors cutoff3 cutoff4 ins.1 user_id ins.2 with
  | Except.error e => Except.error e
  | Except.ok db4 => Except.ok (db4, ins.2)

/-- `get_conn()`: run the body on the connection; on normal exit commit the
body's state, on an exception roll back to the initial state and re-raise.
Returns the persisted database and the outcome. -/
def runWithConn (body : DB → Except String (DB × α)) (db : DB) :
    DB × Except String α :=
  match body db with
  | Except.ok (db2, a) => (db2, Except.ok a)
  | Except.error e => (db, Except.error e)

/-- `confirm_receipt`'s write path: the body under `get_conn`. -/
def confirmReceiptTx (cutoff3 cutoff4 : String) (user_id : Nat)
    (merchant : String) (total : ℚ) (purchased_at status : String)
    (category : Option String) (db : DB) : DB × Except String Nat :=
  runWithConn
    (confirmBody cutoff3 cutoff4 user_id merchant total purchased_at status category)
    db

/-- `mark_alert_read` (`app/routers/alerts.py`): `UPDATE alerts SET
is_read = 1 WHERE id = ? AND user_id = ?`; a zero rowcount raises a 404
(`Except.error ()`), which rolls the (empty) update back. -/
def mark_alert_read (db : DB) (user_id alert_id : Nat) : DB × Except Unit Nat :=
  let rowcount := (db.alerts.filter (fun a =>
    a.id == alert_id && a.userId == user_id)).length
  if rowcount == 0 then (db, Except.error ())
  else
    ({ db with
        alerts := db.alerts.map (fun a =>
          if a.id == alert_id && a.userId == user_id then
            { a with isRead := true }
          else a) },
     Except.ok alert_id)

instance {ε α : Type} [DecidableEq ε] [DecidableEq α] : DecidableEq (Except ε α) :=
  fun x y =>
    match x, y with
    | Except.ok a, Except.ok b => decidable_of_iff (a = b) (by simp)
    | Except.error e1, Except.error e2 => decidable_of_iff (e1 = e2) (by simp)
    | Except.ok _, Except.error _ => isFalse (by simp)
    | Except.error _, Except.ok _ => isFalse (by simp)

/-- Rows for the monthly-budget counterexample: two CONFIRMED expenses in
2025-09 (200 on the 1st, 1 on the 20th) whose month total 201 exceeds the
150 budget, while no other detector condition holds. -/
def receiptSep1 : Receipt :=
  { id := 1, userId := 1, merchant := none, category := none,
    total := 200, purchasedAt := "2025-09-01", status := "CONFIRMED",
    rtype := "expense", isDeleted := false }

/-- The triggering transaction of the counterexample. -/
def receiptSep20 : Receipt :=
  { id := 2, userId := 1, merchant := none, category := none,
    total := 1, purchasedAt := "2025-09-20", status := "CONFIRMED",
    rtype := "expense", isDeleted := false }

/-- A ledger state on which only the monthly-budget condition holds. -/
def dbMonthlyGap : DB :=
  { receipts := [receiptSep1, receiptSep20],
    budgets := [{ userId := 1, month := "2025-09", amount := 150 }],
    alerts := [{ id := 7, userId := 1, kind := "anomaly", message := "m",
                 relatedReceiptId := none, isRead := false }],
    nextReceiptId := 3, nextAlertId := 8 }

/-- The category-overspend condition as the claim words it: the detector
considers only CONFIRMED, non-deleted, expense rows including the
triggering transaction itself; the category must be set; the trailing mean
must exist; and the amount must strictly exceed 2.5 times the mean. -/
def overspend_claim_alert (cutoff3 : String) (db : DB) (uid rid : Nat) : Bool :=
  match db.receipts.find? (fun x => x.id == rid && x.status == "CONFIRMED" &&
      !x.isDeleted && x.rtype == "expense") with
  | none => false
  | some r =>
      match r.category with
      | none => false
      | some cat =>
          if cat = "" then false
          else
            match sqlAvg ((overspendHistory cutoff3 db uid rid cat).map
                Receipt.total) with
            | none => false
            | some avg => decide (r.total > avg * (5 / 2))

/-- A PENDING triggering receipt (id 1) of 30000 with one CONFIRMED 10000
history row in the same category. -/
def dbPendingTrigger : DB :=
  { receipts := [
      { id := 1, userId := 1, merchant := some "S", category := some "G",
        total := 30000, purchasedAt := "2025-09-10", status := "PENDING",
        rtype := "expense", isDeleted := false },
      { id := 2, userId := 1, merchant := some "S", category := some "G",
        total := 10000, purchasedAt := "2025-08-15", status := "CONFIRMED",
        rtype := "expense", isDeleted := false }],
    budgets := [], alerts := [], nextReceiptId := 3, nextAlertId := 1 }

/-- A recurring 9900 charge at merchant Netflix in three distinct trailing
months, plus a triggering 9950 charge (within the 5% band) in the current
month. -/
def dbNetflix : DB :=
  { receipts := [
      { id := 1, userId := 1, merchant := some "Netflix", category := none,
        total := 9900, purchasedAt := "2025-06-05", status := "CONFIRMED",
        rtype := "expense", isDeleted := false },
      { id := 2, userId := 1, merchant := some "Netflix", category := none,
        total := 9900, purchasedAt := "2025-07-05", status := "CONFIRMED",
        rtype := "expense", isDeleted := false },
      { id := 3, userId := 1, merchant := some "Netflix", category := none,
        total := 9900, purchasedAt := "2025-08-05", status := "CONFIRMED",
        rtype := "expense", isDeleted := false },
      { id := 4, userId := 1, merchant := some "Netflix", category := none,
        total := 9950, purchasedAt := "2025-09-05", status := "CONFIRMED",
        rtype := "expense", isDeleted := false }],
    budgets := [], alerts := [], nextReceiptId := 5, nextAlertId := 1 }

/-- The monthly-budget condition as the claim words it: skip only when the
user has no budget entries for the month, else alert exactly when spend
strictly exceeds the summed budget. -/
def monthly_budget_claim_alert (db : DB) (uid rid : Nat) : Bool :=
  match db.receipts.find? (fun x => x.id == rid && x.status == "CONFIRMED" &&
      !x.isDeleted && x.rtype == "expense") with
  | none => false
  | some r =>
      let month := takeStr 7 r.purchasedAt
      if (monthBudgets db uid month).isEmpty then false
      else decide (((monthBudgets db uid month).map Budget.amount).sum <
        monthSpend db uid month)

/-- A CONFIRMED expense of 100 in a month whose single budget entry is 0. -/
def dbZeroBudget : DB :=
  { receipts := [
      { id := 1, userId := 1, merchant := some "M", category := none,
        total := 100, purchasedAt := "2025-09-10", status := "CONFIRMED",
        rtype := "expense", isDeleted := false }],
    budgets := [{ userId := 1, month := "2025-09", amount := 0 }],
    alerts := [], nextReceiptId := 2, nextAlertId := 1 }

/-- The spec's own monthly-budget example: 500000 budgeted for 2025-09,
spend reaching 510000 with the triggering transaction. -/
def dbBudgetExceeded : DB :=
  { receipts := [
      { id := 1, userId := 1, merchant := some "A", category := none,
        total := 400000, purchasedAt := "2025-09-03", status := "CONFIRMED",
        rtype := "expense", isDeleted := false },
      { id := 2, userId := 1, merchant := some "B", category := none,
        total := 110000, purchasedAt := "2025-09-25", status := "CONFIRMED",
        rtype := "expense", isDeleted := false }],
    budgets := [{ userId := 1, month := "2025-09", amount := 500000 }],
    alerts := [], nextReceiptId := 3, nextAlertId := 1 }

/-- A state whose only budget row names the malformed month string the
confirm flow is about to write, so that the daily detector's
`int(strftime(...))` raises mid-transaction. -/
def dbGarbageMonth : DB :=
  { receipts := [], budgets := [{ userId := 1, month := "garbage", amount := 10 }],
    alerts := [], nextReceiptId := 1, nextAlertId := 1 }

/-- The per-row update `mark_alert_read` applies. -/
def markReadRow (alert_id user_id : Nat) (a : Alert) : Alert :=
  if a.id == alert_id && a.userId == user_id then { a with isRead := true } else a

/-- A two-row alert table for exercising the read-acknowledgement path. -/
def dbAlertsW : DB :=
  { receipts := [], budgets := [],
    alerts :=
      [{ id := 1, userId := 1, kind := "anomaly", message := "m1",
         relatedReceiptId := none, isRead := false },
       { id := 2, userId := 1, kind := "overspend", message := "m2",
         relatedReceiptId := none, isRead := false }],
    nextReceiptId := 1, nextAlertId := 3 }

theorem decodeGroups_encodeGroups (bs : List Nat) (hb : ∀ b ∈ bs, b < 256) :
    decodeGroups (encodeGroups bs) = bs := by
  match bs with
  | [] => rfl
  | [a] =>
      have ha : a < 256 := hb a (by simp)
      simp only [encodeGroups, decodeGroups, List.cons.injEq, and_true]
      omega
  | [a, b] =>
      have ha : a < 256 := hb a (by simp)
      have hb' : b < 256 := hb b (by simp)
      simp only [encodeGroups, decodeGroups, List.cons.injEq, and_true]
      refine ⟨by omega, by omega⟩
  | a :: b :: c :: rest =>
      have ha : a < 256 := hb a (by simp)
      have hb' : b < 256 := hb b (by simp)
      have hc : c < 256 := hb c (by simp)
      have ih := decodeGroups_encodeGroups rest (fun x hx => hb x (by simp [hx]))
      simp only [encodeGroups, decodeGroups, ih, List.cons.injEq, and_true]
      refine ⟨by omega, by omega, by omega⟩

theorem encodeGroups_lt (bs : List Nat) (hb : ∀ b ∈ bs, b < 256) :
    ∀ v ∈ encodeGroups bs, v < 64 := by
  match bs with
  | [] => simp [encodeGroups]
  | [a] =>
      have ha : a < 256 := hb a (by simp)
      simp only [encodeGroups, List.mem_cons, List.mem_singleton]
      rintro v (rfl | rfl | h)
      · omega
      · omega
      · simp at h
  | [a, b] =>
      have ha : a < 256 := hb a (by simp)
      have hb' : b < 256 := hb b (by simp)
      simp only [encodeGroups, List.mem_cons, List.mem_singleton]
      rintro v (rfl | rfl | rfl | h)
      · omega
      · omega
      · omega
      · simp at h
  | a :: b :: c :: rest =>
      have ha : a < 256 := hb a (by simp)
      have hb' : b < 256 := hb b (by simp)
      have hc : c < 256 := hb c (by simp)
      have ih := encodeGroups_lt rest (fun x hx => hb x (by simp [hx]))
      simp only [encodeGroups, List.mem_cons]
      rintro v (rfl | rfl | rfl | rfl | h)
      · omega
      · omega
      · omega
      · omega
      · exact ih v h

theorem encodeGroups_length_mod (bs : List Nat) :
    (encodeGroups bs).length % 4 ≠ 1 := by
  match bs with
  | [] => simp [encodeGroups]
  | [a] => simp [encodeGroups]
  | [a, b] => simp [encodeGroups]
  | a :: b :: c :: rest =>
      have ih := encodeGroups_length_mod rest
      simp only [encodeGroups, List.length_cons]
      omega

theorem b64val_b64chr (v : Nat) (hv : v < 64) : b64val (b64chr v) = some v := by
  interval_cases v <;> decide

theorem b64chr_ne_dot (v : Nat) : b64chr v ≠ '.' := by
  by_cases hv : v < 64
  · interval_cases v <;> decide
  · have hlen : b64alphabet.length ≤ v := by
      have h64 : b64alphabet.length = 64 := by decide
      omega
    rw [b64chr, List.getD_eq_default _ _ hlen]
    decide

theorem optTraverse_b64val_map (vs : List Nat) (h : ∀ v ∈ vs, v < 64) :
    optTraverse b64val (vs.map b64chr) = some vs := by
  induction vs with
  | nil => rfl
  | cons v vs ih =>
      have hv : v < 64 := h v (by simp)
      have ihs : optTraverse b64val (vs.map b64chr) = some vs :=
        ih (fun x hx => h x (by simp [hx]))
      simp [optTraverse, b64val_b64chr v hv, ihs]

theorem b64chr_mem (v : Nat) : b64chr v ∈ b64alphabet := by
  by_cases hv : v < 64
  · interval_cases v <;> decide
  · have hlen : b64alphabet.length ≤ v := by
      have h64 : b64alphabet.length = 64 := by decide
      omega
    rw [b64chr, List.getD_eq_default _ _ hlen]
    decide

theorem b64chr_ne_pad (v : Nat) : b64chr v ≠ '=' := by
  intro h
  have hm := b64chr_mem v
  rw [h] at hm
  exact absurd hm (by decide)

theorem b64chr_ne_plus (v : Nat) : b64chr v ≠ '+' := by
  intro h
  have hm := b64chr_mem v
  rw [h] at hm
  exact absurd hm (by decide)

theorem b64chr_ne_slash (v : Nat) : b64chr v ≠ '/' := by
  intro h
  have hm := b64chr_mem v
  rw [h] at hm
  exact absurd hm (by decide)

theorem b64chr_ascii (v : Nat) : (b64chr v).toNat < 128 :=
  (by decide : ∀ c ∈ b64alphabet, c.toNat < 128) _ (b64chr_mem v)

theorem a2bVal_b64chr (v : Nat) (hv : v < 64) : a2bVal (b64chr v) = some v := by
  rw [a2bVal, if_neg (b64chr_ne_plus v), if_neg (b64chr_ne_slash v),
    b64val_b64chr v hv]

theorem a2bAux_pad (qp l p : Nat) (cs : List Char) :
    a2bAux qp l p ('=' :: cs) =
      if 2 ≤ qp ∧ 4 ≤ qp + p + 1 then some [] else a2bAux qp l (p + 1) cs := by
  simp only [a2bAux, reduceIte]

theorem a2bAux_chr0 (v : Nat) (hv : v < 64) (l p : Nat) (cs : List Char) :
    a2bAux 0 l p (b64chr v :: cs) = a2bAux 1 v 0 cs := by
  simp only [a2bAux, if_neg (b64chr_ne_pad v), a2bVal_b64chr v hv, reduceIte]

theorem a2bAux_chr1 (v : Nat) (hv : v < 64) (l p : Nat) (cs : List Char) :
    a2bAux 1 l p (b64chr v :: cs) =
      (a2bAux 2 (v % 16) 0 cs).map (fun bs => (l * 4 + v / 16) :: bs) := by
  simp only [a2bAux, if_neg (b64chr_ne_pad v), a2bVal_b64chr v hv, reduceIte]
  rfl

theorem a2bAux_chr2 (v : Nat) (hv : v < 64) (l p : Nat) (cs : List Char) :
    a2bAux 2 l p (b64chr v :: cs) =
      (a2bAux 3 (v % 4) 0 cs).map (fun bs => (l * 16 + v / 4) :: bs) := by
  simp only [a2bAux, if_neg (b64chr_ne_pad v), a2bVal_b64chr v hv, reduceIte]
  rfl

theorem a2bAux_chr3 (v : Nat) (hv : v < 64) (l p : Nat) (cs : List Char) :
    a2bAux 3 l p (b64chr v :: cs) =
      (a2bAux 0 0 0 cs).map (fun bs => (l * 64 + v) :: bs) := by
  simp only [a2bAux, if_neg (b64chr_ne_pad v), a2bVal_b64chr v hv, reduceIte]
  rfl

/-- The non-strict decoder on a pure-alphabet input of admissible length,
padded the way `_b64url_decode` pads it, agrees with the arithmetic
regrouping `decodeGroups`. -/
theorem a2bAux_map_b64chr_aux (n : Nat) : ∀ vs : List Nat, vs.length ≤ n →
    (∀ v ∈ vs, v < 64) → vs.length % 4 ≠ 1 →
    a2bAux 0 0 0 (vs.map b64chr ++
        List.replicate ((4 - vs.length % 4) % 4) '=') =
      some (decodeGroups vs) := by
  induction n with
  | zero =>
      intro vs hlen _ _
      have hnil : vs = [] := List.length_eq_zero.mp (Nat.le_zero.mp hlen)
      subst hnil
      rfl
  | succ n ih =>
      intro vs hlen h64 hmod
      match vs with
      | [] => rfl
      | [a] => simp at hmod
      | [a, b] =>
          have ha : a < 64 := h64 a (by simp)
          have hb : b < 64 := h64 b (by simp)
          have hl : [a, b].map b64chr ++
              List.replicate ((4 - [a, b].length % 4) % 4) '=' =
              [b64chr a, b64chr b, '=', '='] := rfl
          rw [hl, a2bAux_chr0 a ha, a2bAux_chr1 b hb, a2bAux_pad,
            if_neg (by omega), a2bAux_pad, if_pos (by omega)]
          rfl
      | [a, b, c] =>
          have ha : a < 64 := h64 a (by simp)
          have hb : b < 64 := h64 b (by simp)
          have hc : c < 64 := h64 c (by simp)
          have hl : [a, b, c].map b64chr ++
              List.replicate ((4 - [a, b, c].length % 4) % 4) '=' =
              [b64chr a, b64chr b, b64chr c, '='] := rfl
          rw [hl, a2bAux_chr0 a ha, a2bAux_chr1 b hb, a2bAux_chr2 c hc,
            a2bAux_pad, if_pos (by omega)]
          rfl
      | a :: b :: c :: d :: rest =>
          have ha : a < 64 := h64 a (by simp)
          have hb : b < 64 := h64 b (by simp)
          have hc : c < 64 := h64 c (by simp)
          have hd : d < 64 := h64 d (by simp)
          have hlen4 : rest.length ≤ n := by
            simp only [List.length_cons] at hlen
            omega
          have hmod4 : rest.length % 4 ≠ 1 := by
            simp only [List.length_cons] at hmod
            omega
          have hl : (a :: b :: c :: d :: rest).map b64chr ++
              List.replicate ((4 - (a :: b :: c :: d :: rest).length % 4) % 4) '=' =
              b64chr a :: b64chr b :: b64chr c :: b64chr d ::
                (rest.map b64chr ++
                  List.replicate ((4 - rest.length % 4) % 4) '=') := by
            simp only [List.map_cons, List.cons_append, List.length_cons]
            have hmm : (4 - (rest.length + 1 + 1 + 1 + 1) % 4) % 4 =
                (4 - rest.length % 4) % 4 := by omega
            rw [hmm]
          rw [hl, a2bAux_chr0 a ha, a2bAux_chr1 b hb, a2bAux_chr2 c hc,
            a2bAux_chr3 d hd,
            ih rest hlen4 (fun x hx => h64 x (by simp [hx])) hmod4]
          rfl

theorem b64urlDecode_b64urlEncode (bs : List Nat) (hb : ∀ b ∈ bs, b < 256) :
    b64urlDecode (b64urlEncode bs) = some bs := by
  have hascii : (b64urlEncode bs).all (fun c => c.toNat < 128) = true := by
    rw [List.all_eq_true]
    intro c hc
    simp only [b64urlEncode, List.mem_map] at hc
    obtain ⟨v, _, rfl⟩ := hc
    exact decide_eq_true (b64chr_ascii v)
  rw [b64urlDecode, if_pos hascii, b64urlEncode, List.length_map,
    a2bAux_map_b64chr_aux (encodeGroups bs).length (encodeGroups bs)
      (le_refl _) (encodeGroups_lt bs hb) (encodeGroups_length_mod bs),
    decodeGroups_encodeGroups bs hb]

/-- The leniency the non-strict decoder inherits from `binascii`: inserting
characters outside the alphabet (here four newlines) into an encoded part
leaves the decoded bytes unchanged — such input is NOT a decode error. -/
theorem b64urlDecode_discards_invalid :
    b64urlDecode ('A' :: '\n' :: '\n' :: '\n' :: '\n' :: ['A']) =
      b64urlDecode ['A', 'A'] ∧ b64urlDecode ['A', 'A'] = some [0] := by
  exact ⟨by decide, by decide⟩

theorem mem_b64urlEncode_ne_dot (bs : List Nat) :
    ∀ c ∈ b64urlEncode bs, c ≠ '.' := by
  intro c hc
  simp only [b64urlEncode, List.mem_map] at hc
  obtain ⟨v, _, rfl⟩ := hc
  exact b64chr_ne_dot v

theorem natCharsAux_fuel_irrel (n : Nat) :
    ∀ f1 f2, n ≤ f1 → n ≤ f2 → natCharsAux f1 n = natCharsAux f2 n := by
  induction n using Nat.strong_induction_on with
  | _ n ih =>
      intro f1 f2 h1 h2
      match f1, f2 with
      | 0, 0 => rfl
      | 0, g2 + 1 =>
          have hn : n = 0 := by omega
          subst hn
          simp [natCharsAux]
      | g1 + 1, 0 =>
          have hn : n = 0 := by omega
          subst hn
          simp [natCharsAux]
      | g1 + 1, g2 + 1 =>
          by_cases hlt : n < 10
          · simp [natCharsAux, hlt]
          · have hrec : n / 10 < n := Nat.div_lt_self (by omega) (by omega)
            have hg1 : n / 10 ≤ g1 := by omega
            have hg2 : n / 10 ≤ g2 := by omega
            simp only [natCharsAux, if_neg hlt]
            rw [ih (n / 10) hrec g1 g2 hg1 hg2]

theorem natChars_unfold (n : Nat) :
    natChars n = if n < 10 then [digitChar n]
      else natChars (n / 10) ++ [digitChar (n % 10)] := by
  by_cases h : n < 10
  · rw [if_pos h, natChars]
    match n, h with
    | 0, _ => rfl
    | m + 1, h => simp [natCharsAux, h]
  · rw [if_neg h, natChars, natChars]
    obtain ⟨g, rfl⟩ : ∃ g, n = g + 1 := ⟨n - 1, by omega⟩
    simp only [natCharsAux, if_neg h]
    have hrec : (g + 1) / 10 < g + 1 := Nat.div_lt_self (by omega) (by omega)
    rw [natCharsAux_fuel_irrel ((g + 1) / 10) g ((g + 1) / 10) (by omega) le_rfl]

theorem digitsVal_nil (acc : Nat) : digitsVal acc [] = acc := rfl

theorem digitsVal_cons (acc : Nat) (c : Char) (cs : List Char) :
    digitsVal acc (c :: cs) = digitsVal (acc * 10 + (c.toNat - 48)) cs := rfl

theorem digitsVal_append (acc : Nat) (xs ys : List Char) :
    digitsVal acc (xs ++ ys) = digitsVal (digitsVal acc xs) ys := by
  induction xs generalizing acc with
  | nil => rfl
  | cons x xs ih =>
      rw [List.cons_append, digitsVal_cons, digitsVal_cons]
      exact ih _

theorem natChars_eq_of_ge (n : Nat) (h : 10 ≤ n) :
    natChars n = natChars (n / 10) ++ [digitChar (n % 10)] := by
  rw [natChars_unfold]
  simp [Nat.not_lt.mpr h]

theorem digitChar_toNat (d : Nat) (h : d < 10) : (digitChar d).toNat = 48 + d := by
  interval_cases d <;> decide

theorem isDigitCh_digitChar (d : Nat) (h : d < 10) :
    isDigitCh (digitChar d) = true := by
  interval_cases d <;> decide

theorem digitsVal_natChars (acc n : Nat) :
    digitsVal acc (natChars n) = acc * 10 ^ (natChars n).length + n := by
  by_cases h : n < 10
  · rw [natChars_unfold, if_pos h]
    rw [digitsVal_cons, digitsVal_nil, digitChar_toNat n h]
    simp only [List.length_singleton, pow_one]
    omega
  · have h10 : 10 ≤ n := by omega
    have hrec := digitsVal_natChars acc (n / 10)
    rw [natChars_eq_of_ge n h10, digitsVal_append, hrec, digitsVal_cons,
      digitsVal_nil, digitChar_toNat _ (Nat.mod_lt _ (by omega))]
    simp only [List.length_append, List.length_singleton]
    set L := (natChars (n / 10)).length with hL
    have h1 : 48 + n % 10 - 48 = n % 10 := by omega
    have h2 : n / 10 * 10 + n % 10 = n := by omega
    rw [h1, pow_succ]
    calc (acc * 10 ^ L + n / 10) * 10 + n % 10
        = acc * (10 ^ L * 10) + (n / 10 * 10 + n % 10) := by ring
      _ = acc * (10 ^ L * 10) + n := by rw [h2]
  termination_by n
  decreasing_by exact Nat.div_lt_self (by omega) (by omega)

theorem digitsVal_natChars_zero (n : Nat) : digitsVal 0 (natChars n) = n := by
  simpa using digitsVal_natChars 0 n

theorem natChars_all_digit (n : Nat) : ∀ c ∈ natChars n, isDigitCh c = true := by
  by_cases h : n < 10
  · rw [natChars_unfold, if_pos h]
    intro c hc
    simp at hc
    subst hc
    exact isDigitCh_digitChar n h
  · rw [natChars_eq_of_ge n (by omega)]
    intro c hc
    rcases List.mem_append.mp hc with h1 | h2
    · exact natChars_all_digit (n / 10) c h1
    · simp at h2
      subst h2
      exact isDigitCh_digitChar _ (Nat.mod_lt _ (by omega))
  termination_by n
  decreasing_by exact Nat.div_lt_self (by omega) (by omega)

theorem natChars_ne_nil (n : Nat) : natChars n ≠ [] := by
  by_cases h : n < 10
  · rw [natChars_unfold, if_pos h]
    simp
  · rw [natChars_eq_of_ge n (by omega)]
    simp

/-! ## Session lemmas -/

theorem asciiDecode_strBytes (cs : List Char) (h : ∀ c ∈ cs, c.toNat < 128) :
    asciiDecode (strBytes cs) = some cs := by
  induction cs with
  | nil => rfl
  | cons c cs ih =>
      have hc : c.toNat < 128 := h c (by simp)
      have ihs : optTraverse (fun b => if b < 128 then some (Char.ofNat b) else none)
          (List.map Char.toNat cs) = some cs := by
        have := ih (fun x hx => h x (by simp [hx]))
        simpa [asciiDecode, strBytes] using this
      simp only [asciiDecode, strBytes, List.map_cons, optTraverse,
        if_pos hc, Char.ofNat_toNat, ihs]

theorem strBytes_lt_256 (cs : List Char) (h : ∀ c ∈ cs, c.toNat < 128) :
    ∀ b ∈ strBytes cs, b < 256 := by
  intro b hb
  simp only [strBytes, List.mem_map] at hb
  obtain ⟨c, hc, rfl⟩ := hb
  have := h c hc
  omega

theorem takeWhile_eq_nil_of_head (p : Char → Bool) (cs : List Char)
    (h : ∀ c, cs.head? = some c → p c = false) : cs.takeWhile p = [] := by
  cases cs with
  | nil => rfl
  | cons c cs =>
      have := h c rfl
      simp [List.takeWhile, this]

theorem dropWhile_append_all (p : Char → Bool) (xs rest : List Char)
    (hall : ∀ x ∈ xs, p x = true) :
    (xs ++ rest).dropWhile p = rest.dropWhile p := by
  induction xs with
  | nil => rfl
  | cons x xs ih =>
      have hx := hall x (by simp)
      simp only [List.cons_append, List.dropWhile, hx]
      exact ih (fun y hy => hall y (by simp [hy]))

theorem takeWhile_append_all (p : Char → Bool) (xs rest : List Char)
    (hall : ∀ x ∈ xs, p x = true)
    (h : ∀ c, rest.head? = some c → p c = false) :
    (xs ++ rest).takeWhile p = xs := by
  induction xs with
  | nil => exact takeWhile_eq_nil_of_head p rest h
  | cons x xs ih =>
      have hx := hall x (by simp)
      simp only [List.cons_append, List.takeWhile, hx]
      simp [ih (fun y hy => hall y (by simp [hy]))]

theorem splitDot_exact (a b : List Char) (ha : '.' ∉ a) (hb : '.' ∉ b) :
    splitDot (a ++ '.' :: b) = some (a, b) := by
  have hcount : (a ++ '.' :: b).count '.' = 1 := by
    rw [List.count_append, List.count_cons]
    have h0a : a.count '.' = 0 := List.count_eq_zero.mpr ha
    have h0b : b.count '.' = 0 := List.count_eq_zero.mpr hb
    simp [h0a, h0b]
  have hall : ∀ x ∈ a, (fun c => !(c == '.')) x = true := by
    intro x hx
    have : x ≠ '.' := fun he => ha (he ▸ hx)
    simpa using this
  have hstop : ∀ c, ('.' :: b).head? = some c → (fun c => !(c == '.')) c = false := by
    intro c hc
    simp at hc
    subst hc
    simp
  have htake := takeWhile_append_all (fun c => !(c == '.')) a ('.' :: b) hall hstop
  have hdropA := dropWhile_append_all (fun c => !(c == '.')) a ('.' :: b) hall
  have hdropB : ('.' :: b).dropWhile (fun c => !(c == '.')) = '.' :: b := by
    simp [List.dropWhile]
  unfold splitDot
  rw [if_pos hcount, htake, hdropA, hdropB]
  rfl

theorem parseStrAux_exact (s rest : List Char)
    (h : ∀ c ∈ s, c ≠ '"' ∧ c ≠ '\\') :
    parseStrAux (s ++ '"' :: rest) = some (s, rest) := by
  induction s with
  | nil => simp [parseStrAux]
  | cons c cs ih =>
      have hc := h c (by simp)
      have ihs := ih (fun x hx => h x (by simp [hx]))
      simp [parseStrAux, hc.1, hc.2, ihs]

theorem parseNatVal_natChars (n : Nat) (rest : List Char)
    (h : ∀ c, rest.head? = some c → isDigitCh c = false) :
    parseNatVal (natChars n ++ rest) = some (n, rest) := by
  have htake : (natChars n ++ rest).takeWhile isDigitCh = natChars n :=
    takeWhile_append_all _ _ _ (natChars_all_digit n) h
  have hne : (natChars n).isEmpty = false := by
    cases hx : natChars n with
    | nil => exact absurd hx (natChars_ne_nil n)
    | cons a as => rfl
  simp [parseNatVal, htake, hne, digitsVal_natChars_zero, List.drop_left]

theorem isDigitCh_natChars_head (n : Nat) (c : Char)
    (h : (natChars n).head? = some c) : isDigitCh c = true := by
  apply natChars_all_digit n
  cases hx : natChars n with
  | nil => exact absurd hx (natChars_ne_nil n)
  | cons a as =>
      rw [hx] at h
      simp at h
      simp [hx, h]

theorem natChars_head_ne (n : Nat) (c : Char) (hc : isDigitCh c = false) :
    ∀ rest, (natChars n ++ rest).head? ≠ some c := by
  intro rest hh
  cases hx : natChars n with
  | nil => exact absurd hx (natChars_ne_nil _)
  | cons a as =>
      rw [hx] at hh
      simp at hh
      have := isDigitCh_natChars_head n a (by simp [hx])
      rw [hh] at this
      rw [hc] at this
      exact Bool.false_ne_true this

theorem parseIntVal_intChars (z : Int) (rest : List Char)
    (h : ∀ c, rest.head? = some c → isDigitCh c = false) :
    parseIntVal (intChars z ++ rest) = some (z, rest) := by
  by_cases hz : z < 0
  · have habs : -((z.natAbs : Int)) = z := by omega
    rw [intChars, if_pos hz, List.cons_append, parseIntVal]
    simp [parseNatVal_natChars _ _ h, habs]
    rw [abs_of_neg hz]
    ring
  · have habs : ((z.natAbs : Int)) = z := by omega
    rw [intChars, if_neg hz, parseIntVal,
      if_neg (natChars_head_ne z.natAbs '-' (by decide) rest)]
    simp [parseNatVal_natChars _ _ h, habs]

theorem parseVal_int (z : Int) (rest : List Char)
    (h : ∀ c, rest.head? = some c → isDigitCh c = false) :
    parseVal (intChars z ++ rest) = some (JVal.jint z, rest) := by
  have hhead : (intChars z ++ rest).head? ≠ some '"' := by
    by_cases hz : z < 0
    · rw [intChars, if_pos hz, List.cons_append]
      simp
    · rw [intChars, if_neg hz]
      exact natChars_head_ne z.natAbs '"' (by decide) rest
  rw [parseVal, if_neg hhead, parseIntVal_intChars _ _ h]
  rfl

theorem parseVal_str (s rest : List Char)
    (h : ∀ c ∈ s, c ≠ '"' ∧ c ≠ '\\') :
    parseVal ('"' :: (s ++ '"' :: rest)) = some (JVal.jstr (String.mk s), rest) := by
  simp [parseVal, parseStrAux_exact s rest h]

theorem parseFields_mono (f₁ : Nat) :
    ∀ (cs : List Char) (r : JObj × List Char) (f₂ : Nat),
      parseFields f₁ cs = some r → f₁ ≤ f₂ → parseFields f₂ cs = some r := by
  induction f₁ with
  | zero =>
      intro cs r f₂ hp
      simp [parseFields] at hp
  | succ g ih =>
      intro cs r f₂ hp hle
      obtain ⟨h2, rfl⟩ : ∃ h2, f₂ = h2 + 1 := ⟨f₂ - 1, by omega⟩
      simp only [parseFields] at hp ⊢
      by_cases h1 : cs.head? = some '"'
      · rw [if_pos h1] at hp ⊢
        rcases hs : parseStrAux cs.tail with _ | kp
        · rw [hs] at hp
          simp at hp
        · rw [hs] at hp
          simp only [Option.some_bind] at hp ⊢
          by_cases hc : kp.2.head? = some ':'
          · rw [if_pos hc] at hp ⊢
            rcases hv : parseVal kp.2.tail with _ | vp
            · rw [hv] at hp
              simp at hp
            · rw [hv] at hp
              simp only [Option.some_bind] at hp ⊢
              by_cases hcm : vp.2.head? = some ','
              · rw [if_pos hcm] at hp ⊢
                rcases hrec : parseFields g vp.2.tail with _ | p
                · rw [hrec] at hp
                  simp at hp
                · rw [hrec] at hp
                  rw [ih vp.2.tail p h2 hrec (by omega)]
                  exact hp
              · rw [if_neg hcm] at hp ⊢
                exact hp
          · rw [if_neg hc] at hp ⊢
            exact hp
      · rw [if_neg h1] at hp
        simp at hp

theorem parseFields_field_step (fuel : Nat) (k : List Char)
    (hk : ∀ c ∈ k, c ≠ '"' ∧ c ≠ '\\') (vcs : List Char) (v : JVal)
    (restAfter : List Char) (tailfs : JObj)
    (hv : parseVal vcs = some (v, ',' :: restAfter))
    (hrec : parseFields fuel restAfter = some (tailfs, [])) :
    parseFields (fuel + 1) ('"' :: (k ++ '"' :: ':' :: vcs)) =
      some ((String.mk k, v) :: tailfs, []) := by
  simp only [parseFields, List.head?_cons, List.tail_cons, eq_self_iff_true, if_true]
  rw [parseStrAux_exact k (':' :: vcs) hk]
  simp only [Option.some_bind, List.head?_cons, List.tail_cons, eq_self_iff_true,
    if_true]
  rw [hv]
  simp [hrec]

theorem parseFields_last_field (fuel : Nat) (k : List Char)
    (hk : ∀ c ∈ k, c ≠ '"' ∧ c ≠ '\\') (vcs : List Char) (v : JVal)
    (hv : parseVal vcs = some (v, ['}'])) :
    parseFields (fuel + 1) ('"' :: (k ++ '"' :: ':' :: vcs)) =
      some ([(String.mk k, v)], []) := by
  simp only [parseFields, List.head?_cons, List.tail_cons, eq_self_iff_true, if_true]
  rw [parseStrAux_exact k (':' :: vcs) hk]
  simp only [Option.some_bind, List.head?_cons, List.tail_cons, eq_self_iff_true,
    if_true]
  rw [hv]
  simp

theorem jparse_payloadChars (uid iat exp : Int) (rnd : List Char)
    (hr : ∀ c ∈ rnd, c ≠ '"' ∧ c ≠ '\\') :
    jparse (payloadChars uid iat exp rnd) = some (payloadObj uid iat exp rnd) := by
  have hcomma : ∀ tail : List Char, ∀ c : Char,
      (',' :: tail).head? = some c → isDigitCh c = false := by
    intro tail c hc
    simp at hc
    subst hc
    decide
  have hbrace : ∀ c : Char, (['}'] : List Char).head? = some c → isDigitCh c = false := by
    intro c hc
    simp at hc
    subst hc
    decide
  -- field 4: "uid"
  have huid : parseFields 1
      ('"' :: 'u' :: 'i' :: 'd' :: '"' :: ':' :: (intChars uid ++ ['}'])) =
      some ([("uid", JVal.jint uid)], []) := by
    have hv := parseVal_int uid ['}'] hbrace
    have := parseFields_last_field 0 ['u', 'i', 'd'] (by decide)
      (intChars uid ++ ['}']) (JVal.jint uid) hv
    simpa using this
  -- field 3: "rnd"
  have hrnd : parseFields 2
      ('"' :: 'r' :: 'n' :: 'd' :: '"' :: ':' :: '"' :: (rnd ++
        ('"' :: ',' :: '"' :: 'u' :: 'i' :: 'd' :: '"' :: ':' ::
          (intChars uid ++ ['}'])))) =
      some ([("rnd", JVal.jstr (String.mk rnd)), ("uid", JVal.jint uid)], []) := by
    have hv := parseVal_str rnd
      (',' :: '"' :: 'u' :: 'i' :: 'd' :: '"' :: ':' :: (intChars uid ++ ['}'])) hr
    have := parseFields_field_step 1 ['r', 'n', 'd'] (by decide)
      ('"' :: (rnd ++ ('"' :: ',' :: '"' :: 'u' :: 'i' :: 'd' :: '"' :: ':' ::
        (intChars uid ++ ['}']))))
      (JVal.jstr (String.mk rnd))
      ('"' :: 'u' :: 'i' :: 'd' :: '"' :: ':' :: (intChars uid ++ ['}']))
      [("uid", JVal.jint uid)] hv huid
    simpa using this
  -- field 2: "iat"
  have hiat : parseFields 3
      ('"' :: 'i' :: 'a' :: 't' :: '"' :: ':' :: (intChars iat ++
        (',' :: '"' :: 'r' :: 'n' :: 'd' :: '"' :: ':' :: '"' :: (rnd ++
          ('"' :: ',' :: '"' :: 'u' :: 'i' :: 'd' :: '"' :: ':' ::
            (intChars uid ++ ['}'])))))) =
      some ([("iat", JVal.jint iat), ("rnd", JVal.jstr (String.mk rnd)),
        ("uid", JVal.jint uid)], []) := by
    have hv := parseVal_int iat
      (',' :: ('"' :: 'r' :: 'n' :: 'd' :: '"' :: ':' :: '"' :: (rnd ++
        ('"' :: ',' :: '"' :: 'u' :: 'i' :: 'd' :: '"' :: ':' ::
          (intChars uid ++ ['}']))))) (hcomma _)
    have := parseFields_field_step 2 ['i', 'a', 't'] (by decide)
      (intChars iat ++
        (',' :: '"' :: 'r' :: 'n' :: 'd' :: '"' :: ':' :: '"' :: (rnd ++
          ('"' :: ',' :: '"' :: 'u' :: 'i' :: 'd' :: '"' :: ':' ::
            (intChars uid ++ ['}'])))))
      (JVal.jint iat)
      ('"' :: 'r' :: 'n' :: 'd' :: '"' :: ':' :: '"' :: (rnd ++
        ('"' :: ',' :: '"' :: 'u' :: 'i' :: 'd' :: '"' :: ':' ::
          (intChars uid ++ ['}']))))
      [("rnd", JVal.jstr (String.mk rnd)), ("uid", JVal.jint uid)] hv hrnd
    simpa using this
  -- field 1: "exp"
  have hexp : parseFields 4
      ('"' :: 'e' :: 'x' :: 'p' :: '"' :: ':' :: (intChars exp ++
        (',' :: '"' :: 'i' :: 'a' :: 't' :: '"' :: ':' :: (intChars iat ++
          (',' :: '"' :: 'r' :: 'n' :: 'd' :: '"' :: ':' :: '"' :: (rnd ++
            ('"' :: ',' :: '"' :: 'u' :: 'i' :: 'd' :: '"' :: ':' ::
              (intChars uid ++ ['}'])))))))) =
      some (payloadObj uid iat exp rnd, []) := by
    have hv := parseVal_int exp
      (',' :: ('"' :: 'i' :: 'a' :: 't' :: '"' :: ':' :: (intChars iat ++
        (',' :: '"' :: 'r' :: 'n' :: 'd' :: '"' :: ':' :: '"' :: (rnd ++
          ('"' :: ',' :: '"' :: 'u' :: 'i' :: 'd' :: '"' :: ':' ::
            (intChars uid ++ ['}']))))))) (hcomma _)
    have := parseFields_field_step 3 ['e', 'x', 'p'] (by decide)
      (intChars exp ++
        (',' :: '"' :: 'i' :: 'a' :: 't' :: '"' :: ':' :: (intChars iat ++
          (',' :: '"' :: 'r' :: 'n' :: 'd' :: '"' :: ':' :: '"' :: (rnd ++
            ('"' :: ',' :: '"' :: 'u' :: 'i' :: 'd' :: '"' :: ':' ::
              (intChars uid ++ ['}'])))))))
      (JVal.jint exp)
      ('"' :: 'i' :: 'a' :: 't' :: '"' :: ':' :: (intChars iat ++
        (',' :: '"' :: 'r' :: 'n' :: 'd' :: '"' :: ':' :: '"' :: (rnd ++
          ('"' :: ',' :: '"' :: 'u' :: 'i' :: 'd' :: '"' :: ':' ::
            (intChars uid ++ ['}']))))))
      [("iat", JVal.jint iat), ("rnd", JVal.jstr (String.mk rnd)),
        ("uid", JVal.jint uid)] hv hiat
    simpa [payloadObj] using this
  rw [payloadChars, jparse]
  simp only [List.head?_cons, List.tail_cons, eq_self_iff_true, if_true]
  rw [if_neg (by decide)]
  have hlen : 4 ≤ ('"' :: 'e' :: 'x' :: 'p' :: '"' :: ':' :: (intChars exp ++
      (',' :: '"' :: 'i' :: 'a' :: 't' :: '"' :: ':' :: (intChars iat ++
        (',' :: '"' :: 'r' :: 'n' :: 'd' :: '"' :: ':' :: '"' :: (rnd ++
          ('"' :: ',' :: '"' :: 'u' :: 'i' :: 'd' :: '"' :: ':' ::
            (intChars uid ++ ['}'])))))))).length + 1 := by
    simp [List.length_append]
  rw [parseFields_mono 4 _ _ _ hexp hlen]
  simp

theorem hexDig_props (d : Nat) :
    (hexDig d).toNat < 128 ∧ hexDig d ≠ '"' ∧ hexDig d ≠ '\\' := by
  by_cases h : d < 16
  · interval_cases d <;> exact ⟨by decide, by decide, by decide⟩
  · have hlen : ("0123456789abcdef".data).length ≤ d := by
      have h16 : ("0123456789abcdef".data).length = 16 := by decide
      omega
    rw [hexDig, List.getD_eq_default _ _ hlen]
    exact ⟨by decide, by decide, by decide⟩

theorem hexChars_props (bs : List Nat) :
    ∀ c ∈ hexChars bs, c.toNat < 128 ∧ c ≠ '"' ∧ c ≠ '\\' := by
  intro c hc
  simp only [hexChars, List.mem_flatMap, List.mem_cons] at hc
  obtain ⟨b, _, hc⟩ := hc
  rcases hc with rfl | hc
  · exact hexDig_props _
  · simp at hc
    subst hc
    exact hexDig_props _

theorem natChars_ascii (n : Nat) : ∀ c ∈ natChars n, c.toNat < 128 := by
  intro c hc
  have := natChars_all_digit n c hc
  simp [isDigitCh] at this
  omega

theorem intChars_ascii (z : Int) : ∀ c ∈ intChars z, c.toNat < 128 := by
  intro c hc
  rw [intChars] at hc
  by_cases hz : z < 0
  · rw [if_pos hz] at hc
    rcases List.mem_cons.mp hc with rfl | hc
    · decide
    · exact natChars_ascii _ c hc
  · rw [if_neg hz] at hc
    exact natChars_ascii _ c hc

theorem payloadChars_ascii (uid iat exp : Int) (rnd : List Nat) :
    ∀ c ∈ payloadChars uid iat exp (hexChars rnd), c.toNat < 128 := by
  rw [payloadChars]
  repeat
    first
      | refine List.forall_mem_cons.mpr ⟨by decide, ?_⟩
      | refine List.forall_mem_append.mpr ⟨?_, ?_⟩
      | exact intChars_ascii _
      | exact fun c hc => (hexChars_props rnd c hc).1
      | simp

theorem jget_payloadObj_exp (uid iat exp : Int) (rnd : List Char) :
    jget (payloadObj uid iat exp rnd) "exp" = some (JVal.jint exp) := by
  simp [jget, payloadObj, List.find?]

theorem jget_payloadObj_uid (uid iat exp : Int) (rnd : List Char) :
    jget (payloadObj uid iat exp rnd) "uid" = some (JVal.jint uid) := by
  simp [jget, payloadObj, List.find?]

/-- Core round trip: verifying a freshly issued token reduces to the expiry
guard on the canonical payload. -/
theorem verify_create_session_token (mac : List Nat → List Nat → List Nat)
    (hmac : ∀ k m, ∀ b ∈ mac k m, b < 256)
    (secret : String) (hs : secret ≠ "") (ttl now : Int) (rnd : List Nat)
    (uid : Int) (t : Int) (tok : String)
    (hc : create_session_token mac secret ttl now rnd uid = Except.ok tok) :
    verify_session_token mac secret t tok =
      expGuard t (payloadObj uid now (now + ttl) (hexChars rnd)) := by
  have hkey : getSecretBytes secret = Except.ok (strBytes secret.data) := by
    rw [getSecretBytes, if_neg hs]
  have hpbytes := payloadChars_ascii uid now (now + ttl) rnd
  set pcs := payloadChars uid now (now + ttl) (hexChars rnd) with hpcs
  set pb := strBytes pcs with hpb
  have hpb256 : ∀ b ∈ pb, b < 256 := strBytes_lt_256 pcs hpbytes
  set sig := mac (strBytes secret.data) pb with hsig
  have hsig256 : ∀ b ∈ sig, b < 256 := hmac _ _
  have htok : tok = String.mk (b64urlEncode pb ++ '.' :: b64urlEncode sig) := by
    rw [create_session_token, hkey] at hc
    simp only [Except.map] at hc
    exact ((Except.ok.injEq _ _).mp hc).symm
  have hdata : tok.data = b64urlEncode pb ++ '.' :: b64urlEncode sig := by
    rw [htok]
  have hne : tok.data.isEmpty = false := by
    rw [hdata]
    cases hb : b64urlEncode pb <;> simp [List.isEmpty]
  rw [verify_session_token, hne]
  simp only [Bool.false_eq_true, if_false]
  rw [hdata, splitDot_exact _ _ (fun hm => (mem_b64urlEncode_ne_dot pb '.' hm) rfl)
    (fun hm => (mem_b64urlEncode_ne_dot sig '.' hm) rfl)]
  simp only [Option.some_bind]
  rw [b64urlDecode_b64urlEncode pb hpb256]
  simp only [Option.some_bind]
  rw [b64urlDecode_b64urlEncode sig hsig256]
  simp only [Option.some_bind]
  rw [hkey]
  simp only [Except.toOption, Option.some_bind]
  rw [if_neg (by simp [hsig])]
  rw [asciiDecode_strBytes pcs hpbytes]
  simp only [Option.some_bind]
  rw [hpcs, jparse_payloadChars uid now (now + ttl) (hexChars rnd)
    (fun c hc => ((hexChars_props rnd c hc).2))]
  simp only [Option.some_bind]

/-- C2 (counterexample): with the environment variable absent, module load
resolves the secret to the hardcoded default and `_get_secret_bytes`
succeeds — no configuration error is ever raised, contradicting the claimed
fail-fast behaviour. -/
theorem session_secret_absent_falls_back :
    sessionSecretInit none = defaultSessionSecret ∧
    getSecretBytes (sessionSecretInit none) =
      Except.ok (strBytes defaultSessionSecret.data) ∧
    defaultSessionSecret ≠ "" := by
  refine ⟨rfl, ?_, by decide⟩
  rw [getSecretBytes, if_neg (by decide)]
  rfl

/-- C2 (amended): if no secret key is configured the module silently falls
back to the hardcoded default key; the resolved secret is never empty, so
the `RuntimeError` branch of `_get_secret_bytes` is unreachable and every
signing or verification operation uses the configured value when present and
non-empty, the hardcoded default otherwise. -/
theorem session_secret_resolution (env : Option String) :
    getSecretBytes (sessionSecretInit env) =
      Except.ok (strBytes (sessionSecretInit env).data) ∧
    sessionSecretInit none = defaultSessionSecret ∧
    (∀ s, s ≠ "" → sessionSecretInit (some s) = s) := by
  refine ⟨?_, rfl, ?_⟩
  · have hne : sessionSecretInit env ≠ "" := by
      match env with
      | none => decide
      | some s =>
          by_cases hs : s = ""
          · simp [sessionSecretInit, hs]
            decide
          · simp [sessionSecretInit, hs]
    rw [getSecretBytes, if_neg hne]
  · intro s hs
    simp [sessionSecretInit, hs]

/-- C2 (witness for the amended claim). -/
theorem session_secret_resolution_witness :
    getSecretBytes (sessionSecretInit none) =
      Except.ok (strBytes (sessionSecretInit none).data) ∧
    sessionSecretInit none = defaultSessionSecret ∧
    sessionSecretInit (some "mykey") = "mykey" :=
  ⟨(session_secret_resolution none).1, (session_secret_resolution none).2.1,
   (session_secret_resolution (some "mykey")).2.2 "mykey" (by decide)⟩

/-- C3: for every subject, TTL and issue time, a token produced by
`create_session_token` verifies to its payload (whose `uid` field is the
subject) at every time `t ≤ issuedAt + TTL`, and verifies to `none` at every
time strictly after `issuedAt + TTL`. -/
theorem session_token_round_trip_expiry (mac : List Nat → List Nat → List Nat)
    (hmac : ∀ k m, ∀ b ∈ mac k m, b < 256)
    (secret : String) (hs : secret ≠ "") (ttl now t : Int) (rnd : List Nat)
    (uid : Int) (tok : String)
    (hc : create_session_token mac secret ttl now rnd uid = Except.ok tok) :
    (t ≤ now + ttl →
      verify_session_token mac secret t tok =
        some (payloadObj uid now (now + ttl) (hexChars rnd)) ∧
      jget (payloadObj uid now (now + ttl) (hexChars rnd)) "uid" =
        some (JVal.jint uid)) ∧
    (now + ttl < t → verify_session_token mac secret t tok = none) := by
  rw [verify_create_session_token mac hmac secret hs ttl now rnd uid t tok hc]
  constructor
  · intro ht
    refine ⟨?_, jget_payloadObj_uid uid now (now + ttl) (hexChars rnd)⟩
    rw [expGuard, jget_payloadObj_exp]
    dsimp only
    rw [if_neg (by omega)]
  · intro ht
    rw [expGuard, jget_payloadObj_exp]
    dsimp only
    rw [if_pos (by omega)]

/-- C3 (witness): a concrete issued token verifies to its payload at the
expiry instant and to `none` one second later. -/
theorem session_token_round_trip_expiry_witness :
    verify_session_token (fun _ _ => [0]) "k" 150
        "eyJleHAiOjE1MCwiaWF0Ijo1MCwicm5kIjoiMDEwMjAzMDQwNTA2MDcwOCIsInVpZCI6NDJ9.AA" =
      some (payloadObj 42 50 (50 + 100) (hexChars [1, 2, 3, 4, 5, 6, 7, 8])) ∧
    verify_session_token (fun _ _ => [0]) "k" 151
        "eyJleHAiOjE1MCwiaWF0Ijo1MCwicm5kIjoiMDEwMjAzMDQwNTA2MDcwOCIsInVpZCI6NDJ9.AA" =
      none :=
  ⟨((session_token_round_trip_expiry (fun _ _ => [0])
      (by intro k m b hb; simp at hb; omega) "k" (by decide) 100 50 150
      [1, 2, 3, 4, 5, 6, 7, 8] 42
      "eyJleHAiOjE1MCwiaWF0Ijo1MCwicm5kIjoiMDEwMjAzMDQwNTA2MDcwOCIsInVpZCI6NDJ9.AA"
      (by rfl)).1 (by omega)).1,
   (session_token_round_trip_expiry (fun _ _ => [0])
      (by intro k m b hb; simp at hb; omega) "k" (by decide) 100 50 151
      [1, 2, 3, 4, 5, 6, 7, 8] 42
      "eyJleHAiOjE1MCwiaWF0Ijo1MCwicm5kIjoiMDEwMjAzMDQwNTA2MDcwOCIsInVpZCI6NDJ9.AA"
      (by rfl)).2 (by omega)⟩

/-- C5: token verification is total (`Option`-valued, every branch of the
source returns `None` instead of raising) and fails uniformly: a token
without exactly one separator, a token whose payload part does not base64-
decode, a token whose signature does not match, and a well-formed but
expired token all produce the same `none`. -/
theorem verify_total_uniform_failure (mac : List Nat → List Nat → List Nat)
    (secret : String) (now : Int) :
    (∀ token : String, token.data.count '.' ≠ 1 →
      verify_session_token mac secret now token = none) ∧
    (∀ p64 s64 : List Char, '.' ∉ p64 → '.' ∉ s64 → b64urlDecode p64 = none →
      verify_session_token mac secret now (String.mk (p64 ++ '.' :: s64)) = none) ∧
    (∀ p64 s64 pb sb, '.' ∉ p64 → '.' ∉ s64 → b64urlDecode p64 = some pb →
      b64urlDecode s64 = some sb → sb ≠ mac (strBytes secret.data) pb →
      verify_session_token mac secret now (String.mk (p64 ++ '.' :: s64)) = none) ∧
    (∀ ttl iat : Int, ∀ rnd : List Nat, ∀ uid : Int, ∀ tok : String,
      (∀ k m, ∀ b ∈ mac k m, b < 256) → secret ≠ "" →
      create_session_token mac secret ttl iat rnd uid = Except.ok tok →
      iat + ttl < now → verify_session_token mac secret now tok = none) := by
  refine ⟨?_, ?_, ?_, ?_⟩
  · intro token hcnt
    rw [verify_session_token]
    by_cases he : token.data.isEmpty
    · rw [he]
      simp
    · simp only [he, Bool.false_eq_true, if_false]
      rw [splitDot, if_neg hcnt]
      simp
  · intro p64 s64 hp hs hdec
    rw [verify_session_token]
    have hne : (String.mk (p64 ++ '.' :: s64)).data.isEmpty = false := by
      cases p64 <;> simp [List.isEmpty]
    rw [hne]
    simp only [Bool.false_eq_true, if_false]
    rw [splitDot_exact p64 s64 hp hs]
    simp only [Option.some_bind]
    rw [hdec]
    simp
  · intro p64 s64 pb sb hp hs hpb hsb hne
    rw [verify_session_token]
    have hnem : (String.mk (p64 ++ '.' :: s64)).data.isEmpty = false := by
      cases p64 <;> simp [List.isEmpty]
    rw [hnem]
    simp only [Bool.false_eq_true, if_false]
    rw [splitDot_exact p64 s64 hp hs]
    simp only [Option.some_bind]
    rw [hpb]
    simp only [Option.some_bind]
    rw [hsb]
    simp only [Option.some_bind]
    by_cases hsec : secret = ""
    · rw [getSecretBytes, if_pos hsec]
      simp [Except.toOption]
    · rw [getSecretBytes, if_neg hsec]
      simp only [Except.toOption, Option.some_bind]
      rw [if_pos hne]
  · intro ttl iat rnd uid tok hmac hsec hc hexp
    rw [verify_create_session_token mac hmac secret hsec ttl iat rnd uid now tok hc]
    rw [expGuard, jget_payloadObj_exp]
    dsimp only
    rw [if_pos (by omega)]

/-- C5 (witness): the four failure modes at concrete inputs. -/
theorem verify_total_uniform_failure_witness :
    verify_session_token (fun _ _ => [1]) "k" 0 "abc" = none ∧
    verify_session_token (fun _ _ => [1]) "k" 0 (String.mk (['A'] ++ '.' :: ['A', 'A'])) = none ∧
    verify_session_token (fun _ _ => [1]) "k" 0
      (String.mk (['A', 'A'] ++ '.' :: ['A', 'A'])) = none ∧
    verify_session_token (fun _ _ => [1]) "k" 151
      "eyJleHAiOjE1MCwiaWF0Ijo1MCwicm5kIjoiMDEwMjAzMDQwNTA2MDcwOCIsInVpZCI6NDJ9.AQ" =
      none :=
  ⟨(verify_total_uniform_failure (fun _ _ => [1]) "k" 0).1 "abc" (by decide),
   (verify_total_uniform_failure (fun _ _ => [1]) "k" 0).2.1 ['A'] ['A', 'A']
     (by decide) (by decide) (by decide),
   (verify_total_uniform_failure (fun _ _ => [1]) "k" 0).2.2.1 ['A', 'A'] ['A', 'A']
     [0] [0] (by decide) (by decide) (by decide) (by decide) (by decide),
   (verify_total_uniform_failure (fun _ _ => [1]) "k" 151).2.2.2 100 50
     [1, 2, 3, 4, 5, 6, 7, 8] 42
     "eyJleHAiOjE1MCwiaWF0Ijo1MCwicm5kIjoiMDEwMjAzMDQwNTA2MDcwOCIsInVpZCI6NDJ9.AQ"
     (by intro k m b hb; simp at hb; omega) (by decide) (by rfl) (by omega)⟩

/-- C6 (counterexample): a correctly signed token whose payload is only
`{"exp": 9999999999}` is accepted by verification although the payload
carries none of `uid`, `iat`, `rnd` — the claimed required-field check does
not exist in the code. -/
theorem verified_token_may_lack_required_fields :
    verify_session_token (fun _ _ => [0]) "k" 0 "eyJleHAiOjk5OTk5OTk5OTl9.AA" =
      some [("exp", JVal.jint 9999999999)] ∧
    jget [("exp", JVal.jint 9999999999)] "uid" = none ∧
    jget [("exp", JVal.jint 9999999999)] "iat" = none ∧
    jget [("exp", JVal.jint 9999999999)] "rnd" = none := by
  refine ⟨by decide, by decide, by decide, by decide⟩

/-- C6 (amended): decoding rejects malformed encodings and malformed
structure, but the only required payload field is `exp`: every token
accepted by verification carries an integer `exp` with `now ≤ exp`, and
need not carry `uid`, `iat` or `rnd`. -/
theorem verified_token_carries_valid_exp (mac : List Nat → List Nat → List Nat)
    (secret : String) (now : Int) (token : String) (payload : JObj)
    (h : verify_session_token mac secret now token = some payload) :
    expOk now payload = true := by
  rw [verify_session_token] at h
  by_cases he : token.data.isEmpty
  · rw [he] at h
    simp at h
  · simp only [he, Bool.false_eq_true, if_false] at h
    obtain ⟨parts, _, h⟩ := Option.bind_eq_some.mp h
    obtain ⟨pb, _, h⟩ := Option.bind_eq_some.mp h
    obtain ⟨sb, _, h⟩ := Option.bind_eq_some.mp h
    obtain ⟨key, _, h⟩ := Option.bind_eq_some.mp h
    by_cases hsig : sb ≠ mac key pb
    · rw [if_pos hsig] at h
      simp at h
    · rw [if_neg hsig] at h
      obtain ⟨text, _, h⟩ := Option.bind_eq_some.mp h
      obtain ⟨pl, _, h⟩ := Option.bind_eq_some.mp h
      rw [expGuard] at h
      match hg : jget pl "exp" with
      | some (JVal.jint e) =>
          rw [hg] at h
          dsimp only at h
          by_cases hlt : e < now
          · rw [if_pos hlt] at h
            simp at h
          · rw [if_neg hlt] at h
            have hpl : pl = payload := by simpa using h
            subst hpl
            rw [expOk, hg]
            simp
            omega
      | some (JVal.jstr s) => rw [hg] at h; simp at h
      | none => rw [hg] at h; simp at h

/-- C6 (witness for the amended claim): the forged minimal token passes the
`exp` check. -/
theorem verified_token_carries_valid_exp_witness :
    expOk 0 [("exp", JVal.jint 9999999999)] = true :=
  verified_token_carries_valid_exp (fun _ _ => [0]) "k" 0
    "eyJleHAiOjk5OTk5OTk5OTl9.AA" [("exp", JVal.jint 9999999999)] (by decide)

/-! ## Detector lemmas -/

theorem insertAlert_alerts (db : DB) (uid : Nat) (k m : String) (rel : Option Nat) :
    (insertAlert db uid k m rel).alerts = db.alerts ++
      [{ id := db.nextAlertId, userId := uid, kind := k, message := m,
         relatedReceiptId := rel, isRead := false }] := rfl

theorem mem_insertAlert (db : DB) (uid : Nat) (k m : String) (rel : Option Nat) :
    ∀ a ∈ (insertAlert db uid k m rel).alerts, a ∈ db.alerts ∨ a.kind = k := by
  intro a ha
  rw [insertAlert_alerts] at ha
  rcases List.mem_append.mp ha with h | h
  · exact Or.inl h
  · simp at h
    subst h
    exact Or.inr rfl

theorem check_overspend_alert_cases (cutoff3 : String) (db : DB) (uid rid : Nat) :
    check_overspend_alert cutoff3 db uid rid = db ∨
    ∃ m rel, check_overspend_alert cutoff3 db uid rid =
      insertAlert db uid "anomaly" m rel := by
  unfold check_overspend_alert
  repeat
    first
      | exact Or.inl rfl
      | exact Or.inr ⟨_, _, rfl⟩
      | split
      | dsimp only

theorem check_daily_overspend_alert_cases (db : DB) (uid rid : Nat) :
    check_daily_overspend_alert db uid rid = Except.ok db ∨
    (∃ m rel, check_daily_overspend_alert db uid rid =
      Except.ok (insertAlert db uid "overspend" m rel)) ∨
    (∃ e, check_daily_overspend_alert db uid rid = Except.error e) := by
  unfold check_daily_overspend_alert
  repeat
    first
      | exact Or.inl rfl
      | exact Or.inr (Or.inl ⟨_, _, rfl⟩)
      | exact Or.inr (Or.inr ⟨_, rfl⟩)
      | split
      | dsimp only

theorem check_fixed_cost_alert_cases (cutoff4 : String) (db : DB) (uid rid : Nat) :
    check_fixed_cost_alert cutoff4 db uid rid = db ∨
    ∃ m rel, check_fixed_cost_alert cutoff4 db uid rid =
      insertAlert db uid "fixed_detected" m rel := by
  unfold check_fixed_cost_alert
  repeat
    first
      | exact Or.inl rfl
      | exact Or.inr ⟨_, _, rfl⟩
      | split
      | dsimp only

theorem check_monthly_budget_alert_cases (db : DB) (uid rid : Nat) :
    check_monthly_budget_alert db uid rid = db ∨
    ∃ m, check_monthly_budget_alert db uid rid =
      insertAlert db uid "budget_exceeded" m none := by
  unfold check_monthly_budget_alert
  repeat
    first
      | exact Or.inl rfl
      | exact Or.inr ⟨_, rfl⟩
      | split
      | dsimp only

/-- C1 (amended): every confirmed or updated transaction write invokes
exactly three detectors synchronously — category overspend, daily-budget
overspend and fixed-cost — each receiving the connection state, the user
identity and the transaction identity; the monthly-budget detector is never
invoked, so the write phase can only add alerts of kinds `anomaly`,
`overspend` and `fixed_detected`, never `budget_exceeded`. -/
theorem confirm_write_runs_three_detectors (cutoff3 cutoff4 : String)
    (db : DB) (uid rid : Nat) (db' : DB)
    (h : runConfirmDetectors cutoff3 cutoff4 db uid rid = Except.ok db') :
    ∀ a ∈ db'.alerts, a ∈ db.alerts ∨
      a.kind = "anomaly" ∨ a.kind = "overspend" ∨ a.kind = "fixed_detected" := by
  rw [runConfirmDetectors] at h
  set d2 := check_overspend_alert cutoff3 db uid rid with hd2
  have h2 : ∀ a ∈ d2.alerts, a ∈ db.alerts ∨ a.kind = "anomaly" := by
    rcases check_overspend_alert_cases cutoff3 db uid rid with hcase | ⟨m, rel, hcase⟩
    · rw [← hd2] at hcase
      rw [hcase]
      exact fun a ha => Or.inl ha
    · rw [← hd2] at hcase
      rw [hcase]
      exact mem_insertAlert db uid "anomaly" m rel
  cases hdy : check_daily_overspend_alert d2 uid rid with
  | error e =>
      rw [hdy] at h
      exact absurd h (by simp)
  | ok d3 =>
      rw [hdy] at h
      dsimp only at h
      have hdb : db' = check_fixed_cost_alert cutoff4 d3 uid rid := by
        have := (Except.ok.injEq _ _).mp h
        exact this.symm
      have h3 : ∀ a ∈ d3.alerts, a ∈ d2.alerts ∨ a.kind = "overspend" := by
        rcases check_daily_overspend_alert_cases d2 uid rid with hcase |
          ⟨m, rel, hcase⟩ | ⟨e, hcase⟩
        · rw [hdy] at hcase
          have hd3 : d3 = d2 := (Except.ok.injEq _ _).mp hcase
          rw [hd3]
          exact fun a ha => Or.inl ha
        · rw [hdy] at hcase
          have hd3 : d3 = insertAlert d2 uid "overspend" m rel :=
            (Except.ok.injEq _ _).mp hcase
          rw [hd3]
          exact mem_insertAlert d2 uid "overspend" m rel
        · rw [hdy] at hcase
          exact absurd hcase (by simp)
      have h4 : ∀ a ∈ db'.alerts, a ∈ d3.alerts ∨ a.kind = "fixed_detected" := by
        rcases check_fixed_cost_alert_cases cutoff4 d3 uid rid with hcase |
          ⟨m, rel, hcase⟩
        · rw [hdb, hcase]
          exact fun a ha => Or.inl ha
        · rw [hdb, hcase]
          exact mem_insertAlert d3 uid "fixed_detected" m rel
      intro a ha
      rcases h4 a ha with ha3 | hk
      · rcases h3 a ha3 with ha2 | hk
        · rcases h2 a ha2 with hd | hk
          · exact Or.inl hd
          · exact Or.inr (Or.inl hk)
        · exact Or.inr (Or.inr (Or.inl hk))
      · exact Or.inr (Or.inr (Or.inr hk))

/-- C1 (counterexample): confirming receipt 2 on `dbMonthlyGap` runs the
write-phase detectors without emitting any alert — while invoking the
fourth detector, `check_monthly_budget_alert`, on the same state inserts a
`budget_exceeded` alert at once.  The claimed fourth synchronous invocation
does not exist in the write path. -/
theorem confirm_detectors_omit_monthly_budget :
    runConfirmDetectors "2025-07-01" "2025-06-01" dbMonthlyGap 1 2 =
      Except.ok dbMonthlyGap ∧
    (check_monthly_budget_alert dbMonthlyGap 1 2).alerts.map Alert.kind =
      ["anomaly", "budget_exceeded"] := by
  refine ⟨by with_unfolding_all decide, by with_unfolding_all decide⟩

/-- C1 (witness for the amended claim). -/
theorem confirm_write_runs_three_detectors_witness :
    ({ id := 7, userId := 1, kind := "anomaly", message := "m",
       relatedReceiptId := none, isRead := false } : Alert) ∈ dbMonthlyGap.alerts ∨
      ("anomaly" : String) = "anomaly" ∨ ("anomaly" : String) = "overspend" ∨
      ("anomaly" : String) = "fixed_detected" :=
  confirm_write_runs_three_detectors "2025-07-01" "2025-06-01" dbMonthlyGap
    1 2 dbMonthlyGap (by with_unfolding_all decide)
    { id := 7, userId := 1, kind := "anomaly", message := "m",
      relatedReceiptId := none, isRead := false } (by decide)

theorem insertAlert_ne (db : DB) (uid : Nat) (k m : String) (rel : Option Nat) :
    insertAlert db uid k m rel ≠ db := by
  intro h
  have hlen := congrArg (fun d => d.alerts.length) h
  simp [insertAlert] at hlen

/-- With unique row ids, `fetchone()` on an id-keyed predicate returns
exactly the member row satisfying it. -/
theorem find?_eq_some_of_nodup_id (l : List Receipt)
    (hids : (l.map Receipt.id).Nodup) (p : Receipt → Bool) (rid : Nat)
    (hidp : ∀ x, p x = true → x.id = rid) (r : Receipt) (hr : r ∈ l)
    (hpr : p r = true) : l.find? p = some r := by
  induction l with
  | nil => simp at hr
  | cons a as ih =>
      have hids2 : (a.id :: as.map Receipt.id).Nodup := by simpa using hids
      have hnd := List.nodup_cons.mp hids2
      by_cases hpa : p a = true
      · have heq : a = r := by
          rcases List.mem_cons.mp hr with h | hmem
          · exact h.symm
          · exfalso
            have hida := hidp a hpa
            have hidr := hidp r hpr
            have hin : r.id ∈ as.map Receipt.id := List.mem_map_of_mem _ hmem
            rw [hidr, ← hida] at hin
            exact hnd.1 hin
        rw [List.find?_cons_of_pos _ hpa, heq]
      · have hmem : r ∈ as := by
          rcases List.mem_cons.mp hr with h | hmem
          · exact absurd (h ▸ hpr) hpa
          · exact hmem
        rw [List.find?_cons_of_neg _ hpa]
        exact ih hnd.2 hmem

/-- C4 (amended): the category-overspend detector emits its alert exactly
when: the triggering row exists and is merely non-deleted (its status and
type are not checked), its category is set and non-empty, the trailing
history mean over CONFIRMED/non-deleted/expense rows of the same user and
category (excluding the trigger) exists and is non-zero, and the triggering
amount strictly exceeds 2.5 times that mean. -/
theorem overspend_alert_characterization (cutoff3 : String) (db : DB)
    (uid rid : Nat) (hids : (db.receipts.map Receipt.id).Nodup) :
    check_overspend_alert cutoff3 db uid rid ≠ db ↔
      ∃ r ∈ db.receipts, r.id = rid ∧ r.isDeleted = false ∧
        ∃ cat, r.category = some cat ∧ cat ≠ "" ∧
          ∃ avg, sqlAvg ((overspendHistory cutoff3 db uid rid cat).map
              Receipt.total) = some avg ∧
            avg ≠ 0 ∧ r.total > avg * (5 / 2) := by
  constructor
  · intro hne
    unfold check_overspend_alert at hne
    rcases hfind : db.receipts.find? (fun x => x.id == rid && !x.isDeleted)
      with _ | r
    · rw [hfind] at hne
      simp at hne
    · rw [hfind] at hne
      dsimp only at hne
      have hmem := List.mem_of_find?_eq_some hfind
      have hpred := List.find?_some hfind
      simp at hpred
      rcases hcat : r.category with _ | cat
      · rw [hcat] at hne
        simp at hne
      · rw [hcat] at hne
        dsimp only at hne
        by_cases hempty : cat = ""
        · rw [if_pos hempty] at hne
          simp at hne
        · rw [if_neg hempty] at hne
          rcases havg : sqlAvg ((overspendHistory cutoff3 db uid rid cat).map
              Receipt.total) with _ | avg
          · rw [havg] at hne
            simp at hne
          · rw [havg] at hne
            dsimp only at hne
            by_cases hcond : avg ≠ 0 ∧ r.total > avg * (5 / 2)
            · exact ⟨r, hmem, hpred.1, hpred.2, cat, hcat, hempty, avg, havg,
                hcond.1, hcond.2⟩
            · rw [if_neg hcond] at hne
              simp at hne
  · rintro ⟨r, hmem, hid, hdel, cat, hcat, hempty, avg, havg, havg0, hgt⟩
    have hfind : db.receipts.find? (fun x => x.id == rid && !x.isDeleted) =
        some r := by
      apply find?_eq_some_of_nodup_id db.receipts hids _ rid _ r hmem
      · simp [hid, hdel]
      · intro x hx
        simp at hx
        exact hx.1
    unfold check_overspend_alert
    rw [hfind]
    dsimp only
    rw [hcat]
    dsimp only
    rw [if_neg hempty, havg]
    dsimp only
    rw [if_pos ⟨havg0, hgt⟩]
    exact insertAlert_ne db uid "anomaly" _ (some rid)

/-- C4 (counterexample): the code looks the triggering row up filtered only
by `is_deleted`, not by status or type, so a PENDING trigger of 30000 with
a 10000 CONFIRMED history mean emits an `anomaly` alert although the
claim's own condition (trigger CONFIRMED/expense) is false. -/
theorem overspend_trigger_unfiltered :
    (check_overspend_alert "2025-06-10" dbPendingTrigger 1 1).alerts.map
      Alert.kind = ["anomaly"] ∧
    overspend_claim_alert "2025-06-10" dbPendingTrigger 1 1 = false := by
  refine ⟨by with_unfolding_all decide, by with_unfolding_all decide⟩

/-- C4 (witness for the amended claim, instantiated on the counterexample
database below). -/
theorem overspend_alert_characterization_witness :
    check_overspend_alert "2025-06-10" dbPendingTrigger 1 1 ≠ dbPendingTrigger ↔
      ∃ r ∈ dbPendingTrigger.receipts, r.id = 1 ∧ r.isDeleted = false ∧
        ∃ cat, r.category = some cat ∧ cat ≠ "" ∧
          ∃ avg, sqlAvg ((overspendHistory "2025-06-10" dbPendingTrigger 1 1 cat).map
              Receipt.total) = some avg ∧
            avg ≠ 0 ∧ r.total > avg * (5 / 2) :=
  overspend_alert_characterization "2025-06-10" dbPendingTrigger 1 1 (by decide)

/-- C7: the fixed-cost detector emits its alert exactly when the triggering
row exists for the user as a CONFIRMED, non-deleted expense and the number
of distinct calendar months in the trailing window containing a CONFIRMED,
non-deleted expense of the same user at the same merchant with amount
inside the inclusive band `[0.95 × amount, 1.05 × amount]` (the trigger's
own month included) is three or more. -/
theorem fixed_cost_alert_characterization (cutoff4 : String) (db : DB)
    (uid rid : Nat) (hids : (db.receipts.map Receipt.id).Nodup) :
    check_fixed_cost_alert cutoff4 db uid rid ≠ db ↔
      ∃ r ∈ db.receipts, r.id = rid ∧ r.userId = uid ∧ r.status = "CONFIRMED" ∧
        r.isDeleted = false ∧ r.rtype = "expense" ∧
        3 ≤ (fixedCostMonths cutoff4 db uid r.merchant (r.total * (19 / 20))
          (r.total * (21 / 20))).length := by
  constructor
  · intro hne
    unfold check_fixed_cost_alert at hne
    rcases hfind : db.receipts.find? (fun x => x.id == rid && x.userId == uid &&
        x.status == "CONFIRMED" && !x.isDeleted && x.rtype == "expense")
      with _ | r
    · rw [hfind] at hne
      simp at hne
    · rw [hfind] at hne
      dsimp only at hne
      have hmem := List.mem_of_find?_eq_some hfind
      have hpred := List.find?_some hfind
      simp at hpred
      obtain ⟨⟨⟨⟨hid, huid⟩, hst⟩, hdel⟩, hty⟩ := hpred
      by_cases hcond : 3 ≤ (fixedCostMonths cutoff4 db uid r.merchant
          (r.total * (19 / 20)) (r.total * (21 / 20))).length
      · exact ⟨r, hmem, hid, huid, hst, hdel, hty, hcond⟩
      · rw [if_neg hcond] at hne
        simp at hne
  · rintro ⟨r, hmem, hid, huid, hst, hdel, hty, hcond⟩
    have hfind : db.receipts.find? (fun x => x.id == rid && x.userId == uid &&
        x.status == "CONFIRMED" && !x.isDeleted && x.rtype == "expense") =
        some r := by
      apply find?_eq_some_of_nodup_id db.receipts hids _ rid _ r hmem
      · simp [hid, huid, hst, hdel, hty]
      · intro x hx
        simp at hx
        exact hx.1.1.1.1
    unfold check_fixed_cost_alert
    rw [hfind]
    dsimp only
    rw [if_pos hcond]
    exact insertAlert_ne db uid "fixed_detected" _ (some rid)

/-- C7 (witness): the characterization instantiated on the Netflix
recurring-charge example. -/
theorem fixed_cost_alert_characterization_witness :
    check_fixed_cost_alert "2025-05-20" dbNetflix 1 4 ≠ dbNetflix ↔
      ∃ r ∈ dbNetflix.receipts, r.id = 4 ∧ r.userId = 1 ∧ r.status = "CONFIRMED" ∧
        r.isDeleted = false ∧ r.rtype = "expense" ∧
        3 ≤ (fixedCostMonths "2025-05-20" dbNetflix 1 r.merchant
          (r.total * (19 / 20)) (r.total * (21 / 20))).length :=
  fixed_cost_alert_characterization "2025-05-20" dbNetflix 1 4 (by decide)

/-- C8 (amended): the monthly-budget detector skips when the user's budget
rows for the trigger's month are absent or sum to zero (the code's Python
truthiness test), and otherwise emits `budget_exceeded` exactly when the
month's CONFIRMED/non-deleted expense total strictly exceeds the summed
budget. -/
theorem monthly_budget_alert_characterization (db : DB) (uid rid : Nat)
    (hids : (db.receipts.map Receipt.id).Nodup) :
    check_monthly_budget_alert db uid rid ≠ db ↔
      ∃ r ∈ db.receipts, r.id = rid ∧ r.status = "CONFIRMED" ∧
        r.isDeleted = false ∧ r.rtype = "expense" ∧
        monthBudgets db uid (takeStr 7 r.purchasedAt) ≠ [] ∧
        ((monthBudgets db uid (takeStr 7 r.purchasedAt)).map Budget.amount).sum ≠ 0 ∧
        ((monthBudgets db uid (takeStr 7 r.purchasedAt)).map Budget.amount).sum <
          monthSpend db uid (takeStr 7 r.purchasedAt) := by
  constructor
  · intro hne
    unfold check_monthly_budget_alert at hne
    rcases hfind : db.receipts.find? (fun x => x.id == rid &&
        x.status == "CONFIRMED" && !x.isDeleted && x.rtype == "expense")
      with _ | r
    · rw [hfind] at hne
      simp at hne
    · rw [hfind] at hne
      dsimp only at hne
      have hmem := List.mem_of_find?_eq_some hfind
      have hpred := List.find?_some hfind
      simp at hpred
      by_cases hgate : (monthBudgets db uid (takeStr 7 r.purchasedAt)).isEmpty ||
          ((monthBudgets db uid (takeStr 7 r.purchasedAt)).map Budget.amount).sum == 0
      · rw [if_pos hgate] at hne
        simp at hne
      · rw [if_neg hgate] at hne
        simp only [Bool.or_eq_true, beq_iff_eq, List.isEmpty_iff] at hgate
        push_neg at hgate
        obtain ⟨⟨⟨hid, hst⟩, hdel⟩, hty⟩ := hpred
        by_cases hspent : monthSpend db uid (takeStr 7 r.purchasedAt) >
            ((monthBudgets db uid (takeStr 7 r.purchasedAt)).map Budget.amount).sum
        · exact ⟨r, hmem, hid, hst, hdel, hty, hgate.1, hgate.2, hspent⟩
        · rw [if_neg hspent] at hne
          simp at hne
  · rintro ⟨r, hmem, hid, hst, hdel, hty, hbs, hsum, hspent⟩
    have hfind : db.receipts.find? (fun x => x.id == rid &&
        x.status == "CONFIRMED" && !x.isDeleted && x.rtype == "expense") =
        some r := by
      apply find?_eq_some_of_nodup_id db.receipts hids _ rid _ r hmem
      · simp [hid, hst, hdel, hty]
      · intro x hx
        simp at hx
        exact hx.1.1.1
    unfold check_monthly_budget_alert
    rw [hfind]
    dsimp only
    rw [if_neg (by simp [hbs, hsum])]
    rw [if_pos hspent]
    exact insertAlert_ne db uid "budget_exceeded" _ none

/-- C8 (counterexample): a budget entry of amount 0 is present, spend 100
exceeds the summed budget 0, so the claim requires a `budget_exceeded`
alert — but the code's `if not budget` truthiness test treats the zero sum
like an absent budget and skips. -/
theorem monthly_budget_zero_sum_skipped :
    check_monthly_budget_alert dbZeroBudget 1 1 = dbZeroBudget ∧
    monthly_budget_claim_alert dbZeroBudget 1 1 = true := by
  refine ⟨by with_unfolding_all decide, by with_unfolding_all decide⟩

/-- C8 (witness for the amended claim). -/
theorem monthly_budget_alert_characterization_witness :
    check_monthly_budget_alert dbBudgetExceeded 1 2 ≠ dbBudgetExceeded ↔
      ∃ r ∈ dbBudgetExceeded.receipts, r.id = 2 ∧ r.status = "CONFIRMED" ∧
        r.isDeleted = false ∧ r.rtype = "expense" ∧
        monthBudgets dbBudgetExceeded 1 (takeStr 7 r.purchasedAt) ≠ [] ∧
        ((monthBudgets dbBudgetExceeded 1 (takeStr 7 r.purchasedAt)).map
          Budget.amount).sum ≠ 0 ∧
        ((monthBudgets dbBudgetExceeded 1 (takeStr 7 r.purchasedAt)).map
          Budget.amount).sum < monthSpend dbBudgetExceeded 1 (takeStr 7 r.purchasedAt) :=
  monthly_budget_alert_characterization dbBudgetExceeded 1 2 (by decide)

/-- C9: alerts and the triggering write commit or roll back together.  If
the transactional body of `confirm_receipt` raises, `get_conn` rolls back
and the persisted state is exactly the initial one — neither the inserted
receipt nor any detector-inserted alert survives; if the body completes,
its whole state (receipt and alerts at once) is committed. -/
theorem confirm_tx_atomicity (cutoff3 cutoff4 : String) (uid : Nat)
    (merchant : String) (total : ℚ) (purchased_at status : String)
    (category : Option String) (db : DB) :
    (∀ e, confirmBody cutoff3 cutoff4 uid merchant total purchased_at status
        category db = Except.error e →
      confirmReceiptTx cutoff3 cutoff4 uid merchant total purchased_at status
        category db = (db, Except.error e)) ∧
    (∀ db2 rid, confirmBody cutoff3 cutoff4 uid merchant total purchased_at
        status category db = Except.ok (db2, rid) →
      confirmReceiptTx cutoff3 cutoff4 uid merchant total purchased_at status
        category db = (db2, Except.ok rid)) := by
  constructor
  · intro e he
    rw [confirmReceiptTx, runWithConn, he]
  · intro db2 rid hok
    rw [confirmReceiptTx, runWithConn, hok]

/-- C9 (witness): the rollback branch on a concrete aborted confirm, and
the commit branch on a concrete successful confirm. -/
theorem confirm_tx_atomicity_witness :
    confirmReceiptTx "x" "x" 1 "M" 100 "garbage" "CONFIRMED" none dbGarbageMonth =
      (dbGarbageMonth,
        Except.error "TypeError: int() argument must not be None") ∧
    confirmReceiptTx "x" "x" 1 "M" 100 "2025-09-10" "CONFIRMED" none dbGarbageMonth =
      ((insertReceipt dbGarbageMonth 1 "M" 100 "2025-09-10" "CONFIRMED" none).1,
        Except.ok 1) :=
  ⟨(confirm_tx_atomicity "x" "x" 1 "M" 100 "garbage" "CONFIRMED" none
      dbGarbageMonth).1 _ (by with_unfolding_all decide),
   (confirm_tx_atomicity "x" "x" 1 "M" 100 "2025-09-10" "CONFIRMED" none
      dbGarbageMonth).2 _ 1 (by with_unfolding_all decide)⟩

theorem zip_map_self {α : Type} (f : α → α) (l : List α) :
    (l.map f).zip l = l.map (fun b => (f b, b)) := by
  induction l with
  | nil => rfl
  | cons a as ih => simp [ih]

theorem countP_markReadRow_le_one (alert_id user_id : Nat) (l : List Alert)
    (hnodup : (l.map Alert.id).Nodup) :
    l.countP (fun b => decide (markReadRow alert_id user_id b ≠ b)) ≤ 1 := by
  induction l with
  | nil => simp
  | cons a as ih =>
      have hnd : (∀ x ∈ as, ¬x.id = a.id) ∧ (as.map Alert.id).Nodup := by
        simpa using hnodup
      rw [List.countP_cons]
      by_cases hp : (a.id == alert_id && a.userId == user_id) = true
      · have hzero : as.countP
            (fun b => decide (markReadRow alert_id user_id b ≠ b)) = 0 := by
          rw [List.countP_eq_zero]
          intro b hb
          simp only [decide_eq_true_eq, ne_eq, not_not]
          have ha : a.id = alert_id := by
            simp at hp
            exact hp.1
          have hbid : b.id ≠ alert_id := by
            intro hbeq
            exact hnd.1 b hb (hbeq.trans ha.symm)
          rw [markReadRow, if_neg (by simp [hbid])]
        rw [hzero]
        split <;> omega
      · rw [markReadRow, if_neg hp]
        simp only [ne_eq, not_true_eq_false, decide_not]
        have := ih hnd.2
        simp at this ⊢
        omega

/-- C10: the single-alert read acknowledgement updates only the `isRead`
field, and only on rows whose id and owner match the request; when no such
row exists it returns 404 with every alert row unchanged; under the
unique-id table invariant at most one row changes. -/
theorem mark_alert_read_spec (db : DB) (user_id alert_id : Nat) :
    ((∀ a ∈ db.alerts, ¬(a.id = alert_id ∧ a.userId = user_id)) →
      mark_alert_read db user_id alert_id = (db, Except.error ())) ∧
    ((∃ a ∈ db.alerts, a.id = alert_id ∧ a.userId = user_id) →
      (mark_alert_read db user_id alert_id).2 = Except.ok alert_id) ∧
    (mark_alert_read db user_id alert_id).1.receipts = db.receipts ∧
    (mark_alert_read db user_id alert_id).1.budgets = db.budgets ∧
    (∀ i : Nat, (mark_alert_read db user_id alert_id).1.alerts.get? i =
      (db.alerts.get? i).map (markReadRow alert_id user_id)) ∧
    ((db.alerts.map Alert.id).Nodup →
      (((mark_alert_read db user_id alert_id).1.alerts.zip db.alerts).countP
        (fun p => decide (p.1 ≠ p.2))) ≤ 1) := by
  by_cases hzero :
      (db.alerts.filter (fun a => a.id == alert_id && a.userId == user_id)).length = 0
  · have hnom : ∀ a ∈ db.alerts, (a.id == alert_id && a.userId == user_id) = false := by
      intro a ha
      have := List.length_eq_zero.mp hzero
      by_cases hp : (a.id == alert_id && a.userId == user_id) = true
      · exfalso
        have : a ∈ db.alerts.filter (fun a => a.id == alert_id && a.userId == user_id) :=
          List.mem_filter.mpr ⟨ha, hp⟩
        rw [List.length_eq_zero.mp hzero] at this
        simp at this
      · simpa using hp
    have hmark : mark_alert_read db user_id alert_id = (db, Except.error ()) := by
      rw [mark_alert_read]
      simp [hzero]
    refine ⟨fun _ => hmark, ?_, ?_, ?_, ?_, ?_⟩
    · rintro ⟨a, ha, haid, hauid⟩
      have := hnom a ha
      simp [haid, hauid] at this
    · rw [hmark]
    · rw [hmark]
    · intro i
      rw [hmark]
      dsimp only
      cases hg : db.alerts.get? i with
      | none => rfl
      | some a =>
          have ha := List.get?_mem hg
          simp [markReadRow, hnom a ha]
    · intro _
      rw [hmark]
      dsimp only
      have h1 : db.alerts.zip db.alerts = db.alerts.map (fun b => (b, b)) := by
        have h2 := zip_map_self id db.alerts
        simpa using h2
      rw [h1, List.countP_map]
      rw [List.countP_eq_zero.mpr]
      · omega
      · intro a _
        simp
  · have hmark : mark_alert_read db user_id alert_id =
        ({ db with alerts := db.alerts.map (markReadRow alert_id user_id) },
          Except.ok alert_id) := by
      rw [mark_alert_read]
      simp [hzero, markReadRow]
    refine ⟨?_, fun _ => by rw [hmark], by rw [hmark], by rw [hmark], ?_, ?_⟩
    · intro hnone
      exfalso
      apply hzero
      rw [List.length_eq_zero]
      rw [List.filter_eq_nil]
      intro a ha
      have := hnone a ha
      simp
      intro hid
      intro huid
      exact this ⟨hid, huid⟩
    · intro i
      rw [hmark]
      dsimp only
      rw [List.get?_map]
    · intro hnodup
      rw [hmark]
      dsimp only
      rw [zip_map_self]
      rw [List.countP_map]
      have := countP_markReadRow_le_one alert_id user_id db.alerts hnodup
      simpa using this

/-- C10 (witness): on a concrete two-row table, acknowledging alert 1 as
user 1 succeeds and changes at most one row; acknowledging the nonexistent
alert 99 returns 404 and leaves the state unchanged. -/
theorem mark_alert_read_spec_witness :
    (mark_alert_read dbAlertsW 1 1).2 = Except.ok 1 ∧
    (((mark_alert_read dbAlertsW 1 1).1.alerts.zip dbAlertsW.alerts).countP
      (fun p => decide (p.1 ≠ p.2))) ≤ 1 ∧
    mark_alert_read dbAlertsW 1 99 = (dbAlertsW, Except.error ()) :=
  ⟨(mark_alert_read_spec dbAlertsW 1 1).2.1 (by decide),
   (mark_alert_read_spec dbAlertsW 1 1).2.2.2.2.2 (by decide),
   (mark_alert_read_spec dbAlertsW 1 99).1 (by decide)⟩

end Ledger
